import Mathlib

/-!
crudGO: the Product handlers of `main.go`.

A shallow embedding of the six HTTP handlers of `src/main.go` and of the
library calls they make, followed by the properties of the handlers.

Layout of the model:

* Go values: `Float64`, `ObjectID`, `GoError`, the `Product` struct.
* `primitive.ObjectIDFromHex` / `ObjectID.Hex` over the bytes of the path id
  (driver `go.mongodb.org/mongo-driver` v1, as of 1.17).
* `encoding/json` (as of Go 1.21): the request body is the first JSON value
  of the stream, given as a tree (`Json`) in which every member of an object
  carries the text of its value as the body has it, or a scan error.
  `Decode` is `Decoder.Decode(&product)` for the `Product` struct; the
  conversion of a number literal to `float64` is a parameter.
* The collection: the documents the service itself writes (an `_id` and the
  four fields, the price a finite number), in natural order, with a log of
  the driver calls issued.  Failures of the storage layer are inputs of each
  handler (`fault`), as are the ids that `primitive.NewObjectID` returns.
* `http.ResponseWriter`: the status line and the chunks written to the body;
  headers are not modelled.
-/

namespace CrudGO

/-! ## Go values -/

instance instDecidableEqExcept {ε α : Type} [DecidableEq ε] [DecidableEq α] :
    DecidableEq (Except ε α)
  | .ok a, .ok b => if h : a = b then isTrue (by rw [h]) else isFalse (fun h2 => h (by cases h2; rfl))
  | .error a, .error b =>
    if h : a = b then isTrue (by rw [h]) else isFalse (fun h2 => h (by cases h2; rfl))
  | .ok _, .error _ => isFalse (fun h => by cases h)
  | .error _, .ok _ => isFalse (fun h => by cases h)

/-- A finite `float64`, named by its IEEE-754 bit pattern.  Prices only enter
the service as JSON numbers, so NaN and the infinities do not occur. -/
structure Float64 where
  bits : Nat
deriving DecidableEq, Repr

/-- The type `primitive.ObjectID`, a `[12]byte`. -/
abbrev ObjectID := { l : List (Fin 256) // l.length = 12 }

/-- The zero value `primitive.NilObjectID`. -/
def NilObjectID : ObjectID := ⟨List.replicate 12 0, by simp⟩

/-- The error values the handlers can meet. -/
inductive GoError where
  /-- The value `primitive.ErrInvalidHex`. -/
  | ErrInvalidHex
  /-- The type `hex.InvalidByteError`, with the offending byte. -/
  | InvalidByteError (b : Nat)
  /-- The value `hex.ErrLength`. -/
  | ErrLength
  /-- The value `mongo.ErrNoDocuments`. -/
  | ErrNoDocuments
  /-- A scan error of `encoding/json` (or an i/o error of the body), with its message. -/
  | SyntaxError (msg : String)
  /-- The type `json.UnmarshalTypeError`: JSON value kind, struct field (if any), Go type. -/
  | UnmarshalTypeError (value : String) (field : Option String) (type : String)
  /-- The error `not an extended JSON ObjectID` of `ObjectID.UnmarshalJSON`. -/
  | NotExtendedJSON
  /-- The length error of `ObjectID.UnmarshalJSON`, with the length found. -/
  | ObjectIDLength (n : Nat)
  /-- The write error E11000 of the server: the `_id` index already holds the id. -/
  | DuplicateKey (id : ObjectID)
  /-- Any other error of the MongoDB driver, with its message. -/
  | Storage (msg : String)
deriving DecidableEq, Repr

/-- The table `hextable` of `encoding/hex`. -/
def hextable : List Char := "0123456789abcdef".data

/-- Two hexadecimal digits of one byte, as `hex.Encode` writes them. -/
def encodeByte (b : Fin 256) : List Char :=
  [hextable.getD (b.val / 16) '0', hextable.getD (b.val % 16) '0']

/-- The method `ObjectID.Hex`. -/
def ObjectID.Hex (id : ObjectID) : String := String.mk (id.val.flatMap encodeByte)

/-- The function `strconv.IsPrint` on the runes below 256. -/
def isPrintLatin1 (r : Nat) : Bool :=
  (0x20 ≤ r && r < 0x7F) || (0xA1 ≤ r && r ≤ 0xFF && r != 0xAD)

/-- Upper-case hexadecimal digit. -/
def upperHexDigit (n : Nat) : Char := "0123456789ABCDEF".data.getD n '0'

/-- The verb `%#U` of `fmt` applied to a byte. -/
def fmtSharpU (b : Nat) : String :=
  "U+00" ++ String.mk [upperHexDigit (b / 16), upperHexDigit (b % 16)] ++
    (if isPrintLatin1 b then " " ++ String.mk [Char.ofNat 39, Char.ofNat b, Char.ofNat 39] else "")

/-- The method `Error()` of each error value. -/
def GoError.Error : GoError → String
  | .ErrInvalidHex => "the provided hex string is not a valid ObjectID"
  | .InvalidByteError b => "encoding/hex: invalid byte: " ++ fmtSharpU b
  | .ErrLength => "encoding/hex: odd length hex string"
  | .ErrNoDocuments => "mongo: no documents in result"
  | .SyntaxError msg => msg
  | .UnmarshalTypeError value (some field) type =>
      "json: cannot unmarshal " ++ value ++ " into Go struct field Product." ++ field ++
        " of type " ++ type
  | .UnmarshalTypeError value none type =>
      "json: cannot unmarshal " ++ value ++ " into Go value of type " ++ type
  | .NotExtendedJSON => "not an extended JSON ObjectID"
  | .ObjectIDLength n =>
      "cannot unmarshal into an ObjectID, the length must be 24 but it is " ++ toString n
  | .DuplicateKey id =>
      "write exception: write errors: [E11000 duplicate key error collection: " ++
        "productdb.products index: _id_ dup key: \x7b _id: ObjectId(" ++
        String.mk [Char.ofNat 39] ++ id.Hex ++ String.mk [Char.ofNat 39] ++ ") \x7d]"
  | .Storage msg => msg

/-! ## Strings as bytes, hexadecimal ids -/

/-- UTF-8 encoding of one code point. -/
def utf8EncodeChar (c : Char) : List Nat :=
  let n := c.toNat
  if n < 0x80 then [n]
  else if n < 0x800 then [0xC0 + n / 64, 0x80 + n % 64]
  else if n < 0x10000 then [0xE0 + n / 4096, 0x80 + n / 64 % 64, 0x80 + n % 64]
  else [0xF0 + n / 262144, 0x80 + n / 4096 % 64, 0x80 + n / 64 % 64, 0x80 + n % 64]

/-- The conversion `[]byte(s)`: a Go string is its UTF-8 bytes. -/
def bytesOf (s : String) : List Nat := s.data.flatMap utf8EncodeChar

/-- The function `fromHexChar` of `encoding/hex`. -/
def fromHexChar (c : Nat) : Option Nat :=
  if 48 ≤ c ∧ c ≤ 57 then some (c - 48)
  else if 97 ≤ c ∧ c ≤ 102 then some (c - 97 + 10)
  else if 65 ≤ c ∧ c ≤ 70 then some (c - 65 + 10)
  else none

/-- The function `hex.Decode`: pairs of digits from the left, the first bad
byte is reported, a single trailing digit is a length error. -/
def hexDecode : List Nat → Except GoError (List (Fin 256))
  | [] => .ok []
  | [p] =>
    match fromHexChar p with
    | none => .error (.InvalidByteError p)
    | some _ => .error .ErrLength
  | p :: q :: rest =>
    match fromHexChar p with
    | none => .error (.InvalidByteError p)
    | some a =>
      match fromHexChar q with
      | none => .error (.InvalidByteError q)
      | some b =>
        match hexDecode rest with
        | .error e => .error e
        | .ok bs => .ok (Fin.ofNat (a * 16 + b) :: bs)

/-- The call `hex.Decode(oid[:], src)` into the twelve bytes of an id.  The last
branch cannot be reached from the callers: both pass twenty-four bytes, which
decode to twelve. -/
def decodeObjectID (src : List Nat) : Except GoError ObjectID :=
  match hexDecode src with
  | .error e => .error e
  | .ok bs => if h : bs.length = 12 then .ok ⟨bs, h⟩ else .error .ErrLength

/-- The function `primitive.ObjectIDFromHex`: the length test on the bytes of
the string, then `hex.Decode`. -/
def ObjectIDFromHex (s : String) : Except GoError ObjectID :=
  if (bytesOf s).length ≠ 24 then .error .ErrInvalidHex
  else decodeObjectID (bytesOf s)

/-- A character that is a hexadecimal digit, in either letter case. -/
def isHexDigit (c : Char) : Bool := c ∈ "0123456789abcdefABCDEF".data

/-- A well-formed id in the words of the specification: a 24-character
hexadecimal identifier. -/
def WellFormedId (s : String) : Prop := s.length = 24 ∧ ∀ c ∈ s.data, isHexDigit c = true

instance (s : String) : Decidable (WellFormedId s) := by
  unfold WellFormedId; infer_instance

/-! ## encoding/json: the request body -/

/-- The exponent of a JSON number literal: the letter (`E` when `upper`), the
sign written (`some true` is a minus, `some false` a plus), the digits. -/
structure JExponent where
  upper : Bool
  sign : Option Bool
  first : Fin 10
  rest : List (Fin 10)
deriving DecidableEq, Repr

/-- A JSON number literal: sign, integer part, the digits of the fraction
(none when there is no fraction), the exponent. -/
structure JNumber where
  neg : Bool
  int : Nat
  frac : List (Fin 10)
  exp : Option JExponent
deriving DecidableEq, Repr

/-- Decimal digits as text. -/
def digitsText (ds : List (Fin 10)) : String := String.mk (ds.map (fun d => Char.ofNat (48 + d.val)))

/-- The text of the exponent. -/
def JExponent.text (e : JExponent) : String :=
  (if e.upper then "E" else "e") ++
    (match e.sign with
      | none => ""
      | some true => "-"
      | some false => "+") ++ digitsText (e.first :: e.rest)

/-- The text of the literal. -/
def JNumber.text (n : JNumber) : String :=
  (if n.neg then "-" else "") ++ toString n.int ++
    (if n.frac = [] then "" else "." ++ digitsText n.frac) ++
    (match n.exp with
      | none => ""
      | some e => e.text)

/-- The call `strconv.ParseInt(text, 10, 64)`: an integer literal in the range of `int`. -/
def JNumber.parseInt (n : JNumber) : Option Int :=
  if n.frac = [] ∧ n.exp = none then
    let v : Int := if n.neg then -(n.int : Int) else (n.int : Int)
    if -(2 : Int) ^ 63 ≤ v ∧ v < (2 : Int) ^ 63 then some v else none
  else none

/-- A JSON value.  Strings are held decoded.  The members of an object keep
their order; each is its key, the text of its value as the body has it (white
space and escapes included), and the value that text denotes. -/
inductive Json where
  | null
  | bool (b : Bool)
  | num (n : JNumber)
  | str (s : String)
  | arr (xs : List Json)
  | obj (ms : List (String × String × Json))

/-- The escape of one character inside a JSON string literal. -/
def escapeChar (c : Char) : String :=
  if c.toNat = 34 then String.mk [Char.ofNat 92, Char.ofNat 34]
  else if c.toNat = 92 then String.mk [Char.ofNat 92, Char.ofNat 92]
  else if c.toNat < 0x20 then
    String.mk [Char.ofNat 92, 'u', '0', '0', hextable.getD (c.toNat / 16) '0',
      hextable.getD (c.toNat % 16) '0']
  else String.mk [c]

/-- The JSON string literal of a string, with the escapes JSON requires. -/
def quote (s : String) : String :=
  String.mk [Char.ofNat 34] ++ String.join (s.data.map escapeChar) ++ String.mk [Char.ofNat 34]

mutual
/-- The error of `json.Unmarshal(b, &res)` into an empty interface, for a text
that scans: the type error of the first number literal, in the order of the
text, that `strconv.ParseFloat` rejects. -/
def Json.interfaceError (parseFloat : JNumber → Option Float64) : Json → Option GoError
  | .null => none
  | .bool _ => none
  | .num n =>
    match parseFloat n with
    | some _ => none
    | none => some (.UnmarshalTypeError ("number " ++ n.text) none "float64")
  | .str _ => none
  | .arr xs => interfaceErrorList parseFloat xs
  | .obj ms => interfaceErrorMembers parseFloat ms
/-- The first such error among the elements of an array. -/
def interfaceErrorList (parseFloat : JNumber → Option Float64) : List Json → Option GoError
  | [] => none
  | x :: xs =>
    match x.interfaceError parseFloat with
    | some e => some e
    | none => interfaceErrorList parseFloat xs
/-- The first such error among the members of an object. -/
def interfaceErrorMembers (parseFloat : JNumber → Option Float64) :
    List (String × String × Json) → Option GoError
  | [] => none
  | (_, _, v) :: ms =>
    match v.interfaceError parseFloat with
    | some e => some e
    | none => interfaceErrorMembers parseFloat ms
end

/-- The name `encoding/json` gives the kind of a value in its type errors. -/
def Json.kind : Json → String
  | .null => "null"
  | .bool _ => "bool"
  | .num _ => "number"
  | .str _ => "string"
  | .arr _ => "array"
  | .obj _ => "object"

/-- The struct `Product` of `main.go`. -/
structure Product where
  ID : ObjectID
  Name : String
  Description : String
  Price : Float64
  Quantity : Int
deriving DecidableEq, Repr

/-- The zero value of `Product`, what `var product Product` declares. -/
def Product.zero : Product :=
  { ID := NilObjectID, Name := "", Description := "", Price := ⟨0⟩, Quantity := 0 }

/-- The fields of `Product`, in the order of the declaration. -/
inductive Field where
  | ID
  | Name
  | Description
  | Price
  | Quantity
deriving DecidableEq, Repr

/-- The JSON name of a field: the `json` tag, or the Go name where there is none (`ID`). -/
def Field.jsonName : Field → String
  | .ID => "ID"
  | .Name => "name"
  | .Description => "description"
  | .Price => "price"
  | .Quantity => "quantity"

/-- The fields of `Product`, in the order of the declaration. -/
def structFields : List Field := [.ID, .Name, .Description, .Price, .Quantity]

/-- Case folding of `encoding/json` on the runes that fold to an ASCII letter:
the two letter cases, the long s and the Kelvin sign.  The field names are
ASCII, so no other rune of a key can match one of their letters. -/
def foldRune (c : Char) : Char :=
  if 97 ≤ c.toNat ∧ c.toNat ≤ 122 then Char.ofNat (c.toNat - 32)
  else if c.toNat = 0x17F then 'S'
  else if c.toNat = 0x212A then 'K'
  else c

/-- Whether a field name and a key are equal under case folding. -/
def equalFold (name key : String) : Bool := name.data.map foldRune = key.data.map foldRune

/-- The field a key of the body binds to: the field of that exact name, else
the first field whose name matches it under case folding. -/
def lookupField (key : String) : Option Field :=
  match structFields.find? (fun f => f.jsonName = key) with
  | some f => some f
  | none => structFields.find? (fun f => equalFold f.jsonName key)

/-- The string branch of `ObjectID.UnmarshalJSON`: the empty string is the
zero id, any other string is twenty-four hexadecimal digits. -/
def objectIDFromString (str : String) : Except GoError ObjectID :=
  if (bytesOf str).length = 0 then .ok NilObjectID
  else if (bytesOf str).length ≠ 24 then .error (.ObjectIDLength (bytesOf str).length)
  else decodeObjectID (bytesOf str)

/-- The method `(*ObjectID).UnmarshalJSON` of the driver, called with the text
`b` of the member value, `v` being the value that text denotes.  The text
`null` leaves the id as it is; a text of exactly twelve bytes is copied as it
stands; any other text is unmarshalled into an empty interface, whose error is
returned, and then a string, or an object with a string member `$oid` (the
last one, as in a Go map), is read as hexadecimal digits. -/
def UnmarshalJSON (parseFloat : JNumber → Option Float64) (id : ObjectID) (b : String)
    (v : Json) : Except GoError ObjectID :=
  if b = "null" then .ok id
  else if h : (bytesOf b).length = 12 then .ok ⟨(bytesOf b).map Fin.ofNat, by simp [h]⟩
  else
    match v.interfaceError parseFloat with
    | some e => .error e
    | none =>
      match v with
      | .str s => objectIDFromString s
      | .obj ms =>
        match ms.reverse.find? (fun m => m.1 = "$oid") with
        | some (_, _, .str s) => objectIDFromString s
        | _ => .error .NotExtendedJSON
      | _ => .error .NotExtendedJSON

/-- The state of the decoder inside an object: the struct being filled and
the first type error met (`d.savedError`). -/
structure DecodeState where
  product : Product
  savedError : Option GoError

/-- The method `d.saveError`: only the first error is kept. -/
def DecodeState.saveError (d : DecodeState) (e : GoError) : DecodeState :=
  match d.savedError with
  | none => { d with savedError := some e }
  | some _ => d

/-- The decoder state with the id of the struct replaced. -/
def DecodeState.withID (d : DecodeState) (id : ObjectID) : DecodeState :=
  { d with product := { d.product with ID := id } }

/-- Storing one member of the body object: key, text `b` of the value, value
`v`.  A key that binds to no field is skipped.  The `ID` field has an `UnmarshalJSON` method, whose error ends the
decoding.  A `string`, `float64` or `int` field takes a literal of its kind,
is left alone by `null`, and records a type error for any other value; the
decoding goes on after a type error.  The conversion `parseFloat` is
`strconv.ParseFloat(text, 64)`, none when it reports a range error. -/
def storeMember (parseFloat : JNumber → Option Float64) (d : DecodeState) (key : String)
    (b : String) (v : Json) : Except GoError DecodeState :=
  match lookupField key with
  | none => .ok d
  | some .ID =>
    match UnmarshalJSON parseFloat d.product.ID b v with
    | .error e => .error e
    | .ok id => .ok { d with product := { d.product with ID := id } }
  | some .Name =>
    match v with
    | .null => .ok d
    | .str s => .ok { d with product := { d.product with Name := s } }
    | _ => .ok (d.saveError (.UnmarshalTypeError v.kind (some "name") "string"))
  | some .Description =>
    match v with
    | .null => .ok d
    | .str s => .ok { d with product := { d.product with Description := s } }
    | _ => .ok (d.saveError (.UnmarshalTypeError v.kind (some "description") "string"))
  | some .Price =>
    match v with
    | .null => .ok d
    | .num n =>
      match parseFloat n with
      | some f => .ok { d with product := { d.product with Price := f } }
      | none =>
        .ok (d.saveError (.UnmarshalTypeError ("number " ++ n.text) (some "price") "float64"))
    | _ => .ok (d.saveError (.UnmarshalTypeError v.kind (some "price") "float64"))
  | some .Quantity =>
    match v with
    | .null => .ok d
    | .num n =>
      match n.parseInt with
      | some i => .ok { d with product := { d.product with Quantity := i } }
      | none =>
        .ok (d.saveError (.UnmarshalTypeError ("number " ++ n.text) (some "quantity") "int"))
    | _ => .ok (d.saveError (.UnmarshalTypeError v.kind (some "quantity") "int"))

/-- The members of the body object, stored from left to right. -/
def decodeObject (parseFloat : JNumber → Option Float64) :
    List (String × String × Json) → DecodeState → Except GoError DecodeState
  | [], d => .ok d
  | (k, b, v) :: ms, d =>
    match storeMember parseFloat d k b v with
    | .error e => .error e
    | .ok d2 => decodeObject parseFloat ms d2

/-- Unmarshalling a JSON value into a `Product`: `null` changes nothing, an
object is stored member by member and the first type error is returned once
all are stored, any other value is a type error. -/
def unmarshal (parseFloat : JNumber → Option Float64) (v : Json) (p : Product) :
    Except GoError Product :=
  match v with
  | .null => .ok p
  | .obj ms =>
    match decodeObject parseFloat ms ⟨p, none⟩ with
    | .error e => .error e
    | .ok d =>
      match d.savedError with
      | some e => .error e
      | none => .ok d.product
  | _ => .error (.UnmarshalTypeError v.kind none "main.Product")

/-- The request body as the decoder meets it: a text whose first value does
not scan (with the message of the scan error), or that first value. -/
inductive Body where
  | malformed (msg : String)
  | value (v : Json)

/-- The call `json.NewDecoder(r.Body).Decode(&product)` on a zero `product`. -/
def Decode (parseFloat : JNumber → Option Float64) (body : Body) : Except GoError Product :=
  match body with
  | .malformed msg => .error (.SyntaxError msg)
  | .value v => unmarshal parseFloat v Product.zero

/-! ## encoding/json: the response body -/

/-- A leaf of an encoded `Product`. -/
inductive JScalar where
  | str (s : String)
  | int (i : Int)
  | float (f : Float64)
deriving DecidableEq, Repr

/-- The JSON values the handlers encode: `null`, a string, one object of
leaves, an array of such objects. -/
inductive JsonOut where
  | null
  | str (s : String)
  | obj (o : List (String × JScalar))
  | arr (items : List (List (String × JScalar)))
deriving DecidableEq, Repr

/-- The encoding of a `Product`: the id under its Go name `ID` as the
hexadecimal string of `ObjectID.MarshalJSON`, the other fields under their
`json` tags. -/
def marshalProduct (p : Product) : List (String × JScalar) :=
  [("ID", .str p.ID.Hex), ("name", .str p.Name), ("description", .str p.Description),
    ("price", .float p.Price), ("quantity", .int p.Quantity)]

/-- The function `append` on a slice, `none` being the nil slice. -/
def goAppend {α : Type} (s : Option (List α)) (x : α) : Option (List α) :=
  match s with
  | none => some [x]
  | some l => some (l ++ [x])

/-- The elements of a slice. -/
def goElems {α : Type} (s : Option (List α)) : List α :=
  match s with
  | none => []
  | some l => l

/-- The encoding of a `[]Product`: a nil slice encodes as `null`, any other
slice as an array. -/
def marshalProducts (s : Option (List Product)) : JsonOut :=
  match s with
  | none => .null
  | some ps => .arr (ps.map marshalProduct)

/-! ## net/http: the response -/

/-- One write to the response body: a text, or a JSON value followed by a
newline (`Encoder.Encode`). -/
inductive Chunk where
  | text (s : String)
  | json (v : JsonOut)
deriving DecidableEq, Repr

/-- The `http.ResponseWriter`: the status once the header is written, and
the chunks of the body. -/
structure ResponseWriter where
  status : Option Nat
  body : List Chunk
deriving DecidableEq, Repr

/-- A fresh response. -/
def ResponseWriter.new : ResponseWriter := { status := none, body := [] }

/-- The method `WriteHeader`: the first call fixes the status. -/
def ResponseWriter.WriteHeader (w : ResponseWriter) (code : Nat) : ResponseWriter :=
  match w.status with
  | none => { w with status := some code }
  | some _ => w

/-- The method `Write`: the header goes out with status 200 if not yet written. -/
def ResponseWriter.Write (w : ResponseWriter) (c : Chunk) : ResponseWriter :=
  let w1 := w.WriteHeader 200
  { w1 with body := w1.body ++ [c] }

/-- The function `http.Error`: the status, then the message and a newline. -/
def httpError (w : ResponseWriter) (msg : String) (code : Nat) : ResponseWriter :=
  (w.WriteHeader code).Write (.text (msg ++ "\n"))

/-- The call `json.NewEncoder(w).Encode(v)`. -/
def Encode (w : ResponseWriter) (v : JsonOut) : ResponseWriter := w.Write (.json v)

/-- The status the client receives: 200 when the handler wrote nothing. -/
def ResponseWriter.statusCode (w : ResponseWriter) : Nat := w.status.getD 200

/-- The constant `http.StatusOK`. -/
def StatusOK : Nat := 200
/-- The constant `http.StatusCreated`. -/
def StatusCreated : Nat := 201
/-- The constant `http.StatusBadRequest`. -/
def StatusBadRequest : Nat := 400
/-- The constant `http.StatusNotFound`. -/
def StatusNotFound : Nat := 404
/-- The constant `http.StatusInternalServerError`. -/
def StatusInternalServerError : Nat := 500

/-! ## The collection -/

/-- A document of the collection `products`: the `_id` (bson tag of `ID`) and
the four fields under the lower-cased Go names, which are also the names
`updateProduct` sets. -/
structure Doc where
  _id : ObjectID
  name : String
  description : String
  price : Float64
  quantity : Int
deriving DecidableEq, Repr

/-- A call to the driver. -/
inductive Call where
  | InsertOne
  | FindOne (id : ObjectID)
  | UpdateOne (id : ObjectID)
  | DeleteOne (id : ObjectID)
  | Find
deriving DecidableEq, Repr

/-- The collection: its documents in natural order, and the calls issued so far. -/
structure Collection where
  docs : List Doc
  calls : List Call
deriving DecidableEq, Repr

/-- The unique index on `_id` that the server keeps on every collection. -/
def Collection.WF (c : Collection) : Prop := (c.docs.map (fun d => d._id)).Nodup

/-- Whether the collection holds a document with the id. -/
def Collection.has (c : Collection) (id : ObjectID) : Prop := ∃ d ∈ c.docs, d._id = id

instance (c : Collection) (id : ObjectID) : Decidable (c.has id) := by
  unfold Collection.has; infer_instance

/-- Decoding a document into a `Product`. -/
def Doc.toProduct (d : Doc) : Product :=
  { ID := d._id, Name := d.name, Description := d.description, Price := d.price,
    Quantity := d.quantity }

/-- Marshalling a `Product` for insertion.  The tag `omitempty` leaves a zero
`ID` out, and the driver then adds an id of its own (`driverId`). -/
def marshalDoc (driverId : ObjectID) (p : Product) : Doc :=
  { _id := if p.ID = NilObjectID then driverId else p.ID, name := p.Name,
    description := p.Description, price := p.Price, quantity := p.Quantity }

/-- The call `collection.InsertOne(ctx, product)`.  A `fault` is a failure of
the storage layer with its message; the server refuses an id it already holds. -/
def Collection.InsertOne (c : Collection) (fault : Option String) (driverId : ObjectID)
    (p : Product) : Option GoError × Collection :=
  let c1 : Collection := { c with calls := c.calls ++ [.InsertOne] }
  match fault with
  | some msg => (some (.Storage msg), c1)
  | none =>
    if c.docs.any (fun d => d._id = (marshalDoc driverId p)._id) then
      (some (.DuplicateKey (marshalDoc driverId p)._id), c1)
    else (none, { c1 with docs := c.docs ++ [marshalDoc driverId p] })

/-- The call `collection.FindOne(ctx, bson.M{"_id": id}).Decode(&product)`. -/
def Collection.FindOne (c : Collection) (fault : Option String) (id : ObjectID) :
    Except GoError Product × Collection :=
  let c1 : Collection := { c with calls := c.calls ++ [.FindOne id] }
  match fault with
  | some msg => (.error (.Storage msg), c1)
  | none =>
    match c.docs.find? (fun d => d._id = id) with
    | none => (.error .ErrNoDocuments, c1)
    | some d => (.ok d.toProduct, c1)

/-- The update `$set` of the four fields on one document. -/
def setFields (p : Product) (d : Doc) : Doc :=
  { d with name := p.Name, description := p.Description, price := p.Price,
           quantity := p.Quantity }

/-- The update applied to the first document with the id, if any. -/
def updateFirst (id : ObjectID) (p : Product) : List Doc → List Doc
  | [] => []
  | d :: ds => if d._id = id then setFields p d :: ds else d :: updateFirst id p ds

/-- The call `collection.UpdateOne(ctx, bson.M{"_id": id}, update)`, without upsert. -/
def Collection.UpdateOne (c : Collection) (fault : Option String) (id : ObjectID)
    (p : Product) : Option GoError × Collection :=
  let c1 : Collection := { c with calls := c.calls ++ [.UpdateOne id] }
  match fault with
  | some msg => (some (.Storage msg), c1)
  | none => (none, { c1 with docs := updateFirst id p c.docs })

/-- The first document with the id removed, if any. -/
def deleteFirst (id : ObjectID) : List Doc → List Doc
  | [] => []
  | d :: ds => if d._id = id then ds else d :: deleteFirst id ds

/-- The call `collection.DeleteOne(ctx, bson.M{"_id": id})`. -/
def Collection.DeleteOne (c : Collection) (fault : Option String) (id : ObjectID) :
    Option GoError × Collection :=
  let c1 : Collection := { c with calls := c.calls ++ [.DeleteOne id] }
  match fault with
  | some msg => (some (.Storage msg), c1)
  | none => (none, { c1 with docs := deleteFirst id c.docs })

/-- What can go wrong while reading the whole collection: `Find` fails, the
cursor stops with an error after `k` documents (`Next` returns false), or
`Decode` fails on the document at position `k`. -/
inductive ScanFault where
  | find (msg : String)
  | next (k : Nat)
  | decode (k : Nat) (msg : String)
deriving DecidableEq, Repr

/-- The call `cursor.Decode(&product)` on the document at position `i`. -/
def cursorDecode (fault : Option ScanFault) (i : Nat) (d : Doc) : Except GoError Product :=
  match fault with
  | some (.decode k msg) => if k = i then .error (.Storage msg) else .ok d.toProduct
  | _ => .ok d.toProduct

/-- The loop of `getAllProducts` over the documents the cursor still holds,
`i` being the position of the next one and `products` the slice so far: it
returns the slice when `Next` reports the end, the error of a failed `Decode`. -/
def scanLoop (fault : Option ScanFault) :
    List Doc → Nat → Option (List Product) → Except GoError (Option (List Product))
  | [], _, products => .ok products
  | d :: rest, i, products =>
    if fault = some (.next i) then .ok products
    else
      match cursorDecode fault i d with
      | .error e => .error e
      | .ok product => scanLoop fault rest (i + 1) (goAppend products product)

/-! ## The handlers of main.go -/

/-- The handler `serverHealth`. -/
def serverHealth : ResponseWriter :=
  Encode ResponseWriter.new (.str "Server is up and runingggg!!!")

/-- The handler `createProduct`.  The id `fresh` is what `primitive.NewObjectID()` returns. -/
def createProduct (parseFloat : JNumber → Option Float64) (fresh driverId : ObjectID)
    (fault : Option String) (c : Collection) (body : Body) : Collection × ResponseWriter :=
  let w := ResponseWriter.new
  match Decode parseFloat body with
  | .error err => (c, httpError w err.Error StatusBadRequest)
  | .ok decoded =>
    let product : Product := { decoded with ID := fresh }
    match c.InsertOne fault driverId product with
    | (some err, c1) => (c1, httpError w err.Error StatusInternalServerError)
    | (none, c1) => (c1, Encode (w.WriteHeader StatusCreated) (.obj (marshalProduct product)))

/-- The handler `getProduct`, `idParam` being `params["id"]`. -/
def getProduct (fault : Option String) (c : Collection) (idParam : String) :
    Collection × ResponseWriter :=
  let w := ResponseWriter.new
  match ObjectIDFromHex idParam with
  | .error _ => (c, httpError w "Invalid ID format" StatusBadRequest)
  | .ok id =>
    match c.FindOne fault id with
    | (.error err, c1) =>
      if err = .ErrNoDocuments then (c1, httpError w "Product not found" StatusNotFound)
      else (c1, httpError w err.Error StatusInternalServerError)
    | (.ok product, c1) => (c1, Encode w (.obj (marshalProduct product)))

/-- The handler `updateProduct`. -/
def updateProduct (parseFloat : JNumber → Option Float64) (fault : Option String)
    (c : Collection) (idParam : String) (body : Body) : Collection × ResponseWriter :=
  let w := ResponseWriter.new
  match ObjectIDFromHex idParam with
  | .error _ => (c, httpError w "Invalid ID format" StatusBadRequest)
  | .ok id =>
    match Decode parseFloat body with
    | .error err => (c, httpError w err.Error StatusBadRequest)
    | .ok product =>
      match c.UpdateOne fault id product with
      | (some err, c1) => (c1, httpError w err.Error StatusInternalServerError)
      | (none, c1) => (c1, Encode (w.WriteHeader StatusOK) (.obj (marshalProduct product)))

/-- The handler `deleteProduct`. -/
def deleteProduct (fault : Option String) (c : Collection) (idParam : String) :
    Collection × ResponseWriter :=
  let w := ResponseWriter.new
  match ObjectIDFromHex idParam with
  | .error _ => (c, httpError w "Invalid ID format" StatusBadRequest)
  | .ok id =>
    match c.DeleteOne fault id with
    | (some err, c1) => (c1, httpError w err.Error StatusInternalServerError)
    | (none, c1) => (c1, (w.WriteHeader StatusOK).Write (.text "Product deleted successfully"))

/-- The handler `getAllProducts`. -/
def getAllProducts (fault : Option ScanFault) (c : Collection) : Collection × ResponseWriter :=
  let w := ResponseWriter.new
  let c1 : Collection := { c with calls := c.calls ++ [.Find] }
  match fault with
  | some (.find msg) => (c1, httpError w (GoError.Storage msg).Error StatusInternalServerError)
  | _ =>
    match scanLoop fault c.docs 0 none with
    | .error err => (c1, httpError w err.Error StatusInternalServerError)
    | .ok products => (c1, Encode w (marshalProducts products))

/-! ## Sample values -/

/-- The entries of `strconv.ParseFloat` the samples need: the literals `1.5`,
`5` and `100` with the bits of their float64.  No other literal is looked up. -/
def sampleParseFloat : JNumber → Option Float64 :=
  fun n =>
    if n = ⟨false, 1, [5], none⟩ then some ⟨0x3FF8000000000000⟩
    else if n = ⟨false, 5, [], none⟩ then some ⟨0x4014000000000000⟩
    else if n = ⟨false, 100, [], none⟩ then some ⟨0x4059000000000000⟩
    else none

/-- The members of the scenario payload: Pen, Blue ink, 1.5, 100. -/
def penMembers : List (String × String × Json) :=
  [("name", quote "Pen", .str "Pen"), ("description", quote "Blue ink", .str "Blue ink"),
    ("price", "1.5", .num ⟨false, 1, [5], none⟩),
    ("quantity", "100", .num ⟨false, 100, [], none⟩)]

/-- The scenario payload as a request body. -/
def penBody : Body := .value (.obj penMembers)

/-- The id `65f0a1b2c3d4e5f60718293a`. -/
def sampleId : ObjectID :=
  ⟨[0x65, 0xf0, 0xa1, 0xb2, 0xc3, 0xd4, 0xe5, 0xf6, 0x07, 0x18, 0x29, 0x3a], rfl⟩

/-- The id `65f0a1b2c3d4e5f60718293b`. -/
def otherId : ObjectID :=
  ⟨[0x65, 0xf0, 0xa1, 0xb2, 0xc3, 0xd4, 0xe5, 0xf6, 0x07, 0x18, 0x29, 0x3b], rfl⟩

/-- The scenario product as a stored document under `sampleId`. -/
def penDoc : Doc :=
  { _id := sampleId, name := "Pen", description := "Blue ink", price := ⟨0x3FF8000000000000⟩,
    quantity := 100 }

/-- A collection holding the scenario product only. -/
def penCollection : Collection := { docs := [penDoc], calls := [] }

/-- The empty collection. -/
def emptyCollection : Collection := { docs := [], calls := [] }

/-! ## Well-formed ids: the parser accepts exactly the 24-digit strings -/

theorem fromHexChar_lt {b : Nat} (h : (fromHexChar b).isSome = true) : b < 128 := by
  unfold fromHexChar at h
  split_ifs at h with h1 h2 h3
  · omega
  · omega
  · omega
  · simp at h

theorem isHexDigit_iff (c : Char) : isHexDigit c = true ↔ (fromHexChar c.toNat).isSome = true := by
  constructor
  · intro h
    simp only [isHexDigit, decide_eq_true_eq] at h
    have h2 : c ∈ ['0', '1', '2', '3', '4', '5', '6', '7', '8', '9', 'a', 'b', 'c', 'd', 'e', 'f',
        'A', 'B', 'C', 'D', 'E', 'F'] := h
    simp only [List.mem_cons, List.mem_singleton, List.not_mem_nil, or_false] at h2
    rcases h2 with h | h | h | h | h | h | h | h | h | h | h | h | h | h | h | h | h | h | h | h | h | h <;>
      (subst h; decide)
  · intro h
    have hc : Char.ofNat c.toNat = c := Char.ofNat_toNat c
    unfold fromHexChar at h
    have hr : (48 ≤ c.toNat ∧ c.toNat ≤ 57) ∨ (97 ≤ c.toNat ∧ c.toNat ≤ 102) ∨
        (65 ≤ c.toNat ∧ c.toNat ≤ 70) := by
      split_ifs at h with h1 h2 h3
      · exact Or.inl h1
      · exact Or.inr (Or.inl h2)
      · exact Or.inr (Or.inr h3)
      · simp at h
    rw [← hc]
    generalize c.toNat = n at hr
    rcases hr with ⟨h1, h2⟩ | ⟨h1, h2⟩ | ⟨h1, h2⟩ <;> interval_cases n <;> decide

theorem hexDecode_ok_imp : ∀ (l : List Nat) (bs : List (Fin 256)), hexDecode l = .ok bs →
    bs.length * 2 = l.length ∧ ∀ b ∈ l, (fromHexChar b).isSome = true
  | [], bs, h => by
    simp only [hexDecode, Except.ok.injEq] at h
    subst h
    simp
  | [p], bs, h => by
    simp only [hexDecode] at h
    split at h <;> simp at h
  | p :: q :: rest, bs, h => by
    simp only [hexDecode] at h
    split at h
    · simp at h
    · rename_i a ha
      split at h
      · simp at h
      · rename_i b hb
        split at h
        · simp at h
        · rename_i bs2 hrest
          simp only [Except.ok.injEq] at h
          subst h
          have ih := hexDecode_ok_imp rest bs2 hrest
          refine ⟨by simp only [List.length_cons]; omega, ?_⟩
          intro x hx
          simp only [List.mem_cons] at hx
          rcases hx with hx | hx | hx
          · subst hx; simp [ha]
          · subst hx; simp [hb]
          · exact ih.2 x hx

theorem hexDecode_ok_of : ∀ (l : List Nat), l.length % 2 = 0 →
    (∀ b ∈ l, (fromHexChar b).isSome = true) → ∃ bs, hexDecode l = .ok bs ∧ bs.length * 2 = l.length
  | [], _, _ => ⟨[], rfl, rfl⟩
  | [p], h, _ => by simp at h
  | p :: q :: rest, hlen, hall => by
    have hp := hall p (by simp)
    have hq := hall q (by simp)
    obtain ⟨a, ha⟩ := Option.isSome_iff_exists.mp hp
    obtain ⟨b, hb⟩ := Option.isSome_iff_exists.mp hq
    have hlen2 : rest.length % 2 = 0 := by
      simp only [List.length_cons] at hlen; omega
    obtain ⟨bs, hbs, hl⟩ := hexDecode_ok_of rest hlen2
      (fun x hx => hall x (by simp [hx]))
    refine ⟨Fin.ofNat (a * 16 + b) :: bs, ?_, ?_⟩
    · simp only [hexDecode, ha, hb, hbs]
    · simp only [List.length_cons]; omega

theorem utf8EncodeChar_head_ge {c : Char} (h : ¬ c.toNat < 128) :
    ∃ b ∈ utf8EncodeChar c, 128 ≤ b := by
  unfold utf8EncodeChar
  simp only
  split_ifs with h1 h2
  · exact ⟨_, List.mem_cons_self _ _, by omega⟩
  · exact ⟨_, List.mem_cons_self _ _, by omega⟩
  · exact ⟨_, List.mem_cons_self _ _, by omega⟩

theorem utf8EncodeChar_ascii {c : Char} (h : c.toNat < 128) : utf8EncodeChar c = [c.toNat] := by
  simp [utf8EncodeChar, h]

theorem bytes_ascii : ∀ (cs : List Char), (∀ b ∈ cs.flatMap utf8EncodeChar, b < 128) →
    (∀ c ∈ cs, c.toNat < 128) ∧ cs.flatMap utf8EncodeChar = cs.map Char.toNat
  | [], _ => by simp
  | c :: cs, h => by
    have hc : c.toNat < 128 := by
      by_contra hn
      obtain ⟨b, hb, hge⟩ := utf8EncodeChar_head_ge hn
      have := h b (by simp only [List.flatMap_cons, List.mem_append]; exact Or.inl hb)
      omega
    have ih := bytes_ascii cs (fun b hb => h b (by
      simp only [List.flatMap_cons, List.mem_append]; exact Or.inr hb))
    refine ⟨?_, ?_⟩
    · intro x hx
      simp only [List.mem_cons] at hx
      rcases hx with hx | hx
      · subst hx; exact hc
      · exact ih.1 x hx
    · simp only [List.flatMap_cons, utf8EncodeChar_ascii hc, List.map_cons, ih.2,
        List.singleton_append]

theorem bytes_of_ascii : ∀ (cs : List Char), (∀ c ∈ cs, c.toNat < 128) →
    cs.flatMap utf8EncodeChar = cs.map Char.toNat
  | [], _ => by simp
  | c :: cs, h => by
    have hc := h c (by simp)
    have ih := bytes_of_ascii cs (fun x hx => h x (by simp [hx]))
    simp only [List.flatMap_cons, utf8EncodeChar_ascii hc, List.map_cons, ih,
      List.singleton_append]

/-- The parser of ids accepts a string exactly when it is a 24-character
hexadecimal identifier. -/
theorem ObjectIDFromHex_ok_iff (s : String) :
    (∃ id, ObjectIDFromHex s = .ok id) ↔ WellFormedId s := by
  constructor
  · rintro ⟨id, h⟩
    unfold ObjectIDFromHex at h
    split_ifs at h with hlen
    unfold decodeObjectID at h
    split at h
    · simp at h
    · rename_i bs hbs
      have hd := hexDecode_ok_imp _ _ hbs
      have hasc := bytes_ascii s.data (fun b hb => fromHexChar_lt (hd.2 b hb))
      have hbytes : bytesOf s = s.data.map Char.toNat := hasc.2
      refine ⟨?_, ?_⟩
      · have : (bytesOf s).length = 24 := by omega
        rw [hbytes, List.length_map] at this
        exact this
      · intro c hc
        rw [isHexDigit_iff]
        apply hd.2
        rw [hbytes]
        exact List.mem_map_of_mem _ hc
  · rintro ⟨hlen, hall⟩
    have hsome : ∀ c ∈ s.data, (fromHexChar c.toNat).isSome = true :=
      fun c hc => (isHexDigit_iff c).mp (hall c hc)
    have hbytes : bytesOf s = s.data.map Char.toNat :=
      bytes_of_ascii s.data (fun c hc => fromHexChar_lt (hsome c hc))
    have hl : (bytesOf s).length = 24 := by
      rw [hbytes, List.length_map]; exact hlen
    obtain ⟨bs, hbs, hbl⟩ := hexDecode_ok_of (bytesOf s) (by omega) (by
      intro b hb
      rw [hbytes, List.mem_map] at hb
      obtain ⟨c, hc, rfl⟩ := hb
      exact hsome c hc)
    have h12 : bs.length = 12 := by omega
    exact ⟨⟨bs, h12⟩, by simp [ObjectIDFromHex, hl, decodeObjectID, hbs, h12]⟩

/-! ## Hexadecimal ids: decoding inverts encoding -/

theorem fromHexChar_hextable (n : Fin 16) :
    fromHexChar (hextable.getD n.val '0').toNat = some n.val := by
  revert n; decide

theorem hextable_ascii (n : Fin 16) : (hextable.getD n.val '0').toNat < 128 := by
  revert n; decide

theorem hexDecode_encode (bs : List (Fin 256)) :
    hexDecode ((bs.flatMap encodeByte).flatMap utf8EncodeChar) = .ok bs := by
  induction bs with
  | nil => rfl
  | cons b bs ih =>
    have hhi : b.val / 16 < 16 := by omega
    have hlo : b.val % 16 < 16 := by omega
    have h1 := fromHexChar_hextable ⟨b.val / 16, hhi⟩
    have h2 := fromHexChar_hextable ⟨b.val % 16, hlo⟩
    have a1 := utf8EncodeChar_ascii (hextable_ascii ⟨b.val / 16, hhi⟩)
    have a2 := utf8EncodeChar_ascii (hextable_ascii ⟨b.val % 16, hlo⟩)
    simp only at h1 h2 a1 a2
    have hb : (Fin.ofNat (b.val / 16 * 16 + b.val % 16) : Fin 256) = b := by
      apply Fin.ext
      simp only [Fin.ofNat, Fin.val_mk]
      omega
    simp only [List.flatMap_cons, encodeByte, List.cons_append, List.nil_append, a1, a2,
      List.singleton_append, hexDecode, h1, h2, ih, hb]

theorem length_flatMap_encode (bs : List (Fin 256)) :
    ((bs.flatMap encodeByte).flatMap utf8EncodeChar).length = 2 * bs.length := by
  induction bs with
  | nil => rfl
  | cons b bs ih =>
    have hhi : b.val / 16 < 16 := by omega
    have hlo : b.val % 16 < 16 := by omega
    have a1 := utf8EncodeChar_ascii (hextable_ascii ⟨b.val / 16, hhi⟩)
    have a2 := utf8EncodeChar_ascii (hextable_ascii ⟨b.val % 16, hlo⟩)
    simp only at a1 a2
    simp only [List.flatMap_cons, encodeByte, List.cons_append, List.nil_append, a1, a2,
      List.singleton_append, List.length_cons, ih]
    omega

/-- Reading back the hexadecimal form of an id gives the id. -/
theorem ObjectIDFromHex_Hex (id : ObjectID) : ObjectIDFromHex id.Hex = .ok id := by
  obtain ⟨bs, hlen⟩ := id
  have h24 : (bytesOf (ObjectID.Hex ⟨bs, hlen⟩)).length = 24 := by
    simp only [bytesOf, ObjectID.Hex, length_flatMap_encode, hlen]
  have hdec : hexDecode (bytesOf (ObjectID.Hex ⟨bs, hlen⟩)) = .ok bs := by
    simp only [bytesOf, ObjectID.Hex, hexDecode_encode]
  simp only [ObjectIDFromHex, h24, decodeObjectID, hdec, hlen]
  simp

/-! ## The collection: lookups after updates and deletions -/

theorem ObjectIDFromHex_error_of_not_wf {s : String} (h : ¬ WellFormedId s) :
    ∃ e, ObjectIDFromHex s = .error e := by
  cases hq : ObjectIDFromHex s with
  | error e => exact ⟨e, rfl⟩
  | ok id => exact absurd ((ObjectIDFromHex_ok_iff s).mp ⟨id, hq⟩) h

theorem find?_none_iff_not_has (c : Collection) (id : ObjectID) :
    c.docs.find? (fun d => d._id = id) = none ↔ ¬ c.has id := by
  simp [Collection.has, List.find?_eq_none]

theorem updateFirst_of_not_mem (id : ObjectID) (p : Product) :
    ∀ docs : List Doc, (∀ d ∈ docs, d._id ≠ id) → updateFirst id p docs = docs
  | [], _ => rfl
  | d :: ds, h => by
    have hd : d._id ≠ id := h d (by simp)
    simp only [updateFirst, hd, if_false]
    rw [updateFirst_of_not_mem id p ds (fun x hx => h x (by simp [hx]))]

theorem find?_updateFirst (id : ObjectID) (p : Product) :
    ∀ docs : List Doc, (∃ d ∈ docs, d._id = id) →
      ((updateFirst id p docs).find? (fun d => d._id = id)).map Doc.toProduct =
        some { p with ID := id }
  | [], h => by simp at h
  | d :: ds, h => by
    by_cases hd : d._id = id
    · simp [updateFirst, hd, setFields, Doc.toProduct]
    · have h2 : ∃ x ∈ ds, x._id = id := by
        obtain ⟨x, hx, hxid⟩ := h
        simp only [List.mem_cons] at hx
        rcases hx with hx | hx
        · subst hx; exact absurd hxid hd
        · exact ⟨x, hx, hxid⟩
      have ih := find?_updateFirst id p ds h2
      simp only [updateFirst, hd, if_false, List.find?_cons, decide_False]
      exact ih

theorem updateFirst_eq_map (id : ObjectID) (p : Product) :
    ∀ docs : List Doc, (docs.map (fun d => d._id)).Nodup →
      updateFirst id p docs = docs.map (fun d => if d._id = id then setFields p d else d)
  | [], _ => rfl
  | d :: ds, h => by
    simp only [List.map_cons, List.nodup_cons] at h
    by_cases hd : d._id = id
    · have hds : ∀ x ∈ ds, x._id ≠ id := by
        intro x hx hxid
        exact h.1 (List.mem_map.mpr ⟨x, hx, by rw [hxid, hd]⟩)
      have hmap : ds.map (fun d => if d._id = id then setFields p d else d) = ds := by
        conv_rhs => rw [← List.map_id ds]
        apply List.map_congr_left
        intro x hx
        simp [hds x hx]
      simp only [updateFirst, hd, if_true, List.map_cons, hmap]
    · simp only [updateFirst, hd, if_false, List.map_cons]
      rw [updateFirst_eq_map id p ds h.2]

theorem map_id_updateFirst (id : ObjectID) (p : Product) :
    ∀ docs : List Doc, (updateFirst id p docs).map (fun d => d._id) = docs.map (fun d => d._id)
  | [] => rfl
  | d :: ds => by
    by_cases hd : d._id = id
    · simp [updateFirst, hd, setFields]
    · simp [updateFirst, hd, map_id_updateFirst id p ds]

theorem find?_deleteFirst (id : ObjectID) :
    ∀ docs : List Doc, (docs.map (fun d => d._id)).Nodup →
      (deleteFirst id docs).find? (fun d => d._id = id) = none
  | [], _ => rfl
  | d :: ds, h => by
    simp only [List.map_cons, List.nodup_cons] at h
    by_cases hd : d._id = id
    · simp only [deleteFirst, hd, if_true, List.find?_eq_none, decide_eq_true_eq]
      intro x hx hxid
      exact h.1 (List.mem_map.mpr ⟨x, hx, by rw [hxid, hd]⟩)
    · simp only [deleteFirst, hd, if_false, List.find?_cons, decide_False]
      exact find?_deleteFirst id ds h.2

theorem deleteFirst_sublist (id : ObjectID) : ∀ docs : List Doc, (deleteFirst id docs).Sublist docs
  | [] => List.Sublist.slnil
  | d :: ds => by
    by_cases hd : d._id = id
    · simp only [deleteFirst, hd, if_true]
      exact List.sublist_cons_self d ds
    · simp only [deleteFirst, hd, if_false]
      exact (deleteFirst_sublist id ds).cons₂ d

theorem httpError_new (msg : String) (code : Nat) :
    httpError ResponseWriter.new msg code = ⟨some code, [.text (msg ++ "\n")]⟩ := rfl

theorem Encode_new (v : JsonOut) : Encode ResponseWriter.new v = ⟨some 200, [.json v]⟩ := rfl

theorem Encode_WriteHeader_new (code : Nat) (v : JsonOut) :
    Encode (ResponseWriter.new.WriteHeader code) v = ⟨some code, [.json v]⟩ := rfl

theorem Write_WriteHeader_new (code : Nat) (ch : Chunk) :
    (ResponseWriter.new.WriteHeader code).Write ch = ⟨some code, [ch]⟩ := rfl

theorem statusCode_mk (code : Nat) (b : List Chunk) :
    (ResponseWriter.mk (some code) b).statusCode = code := rfl

theorem goAppend_eq {α : Type} (s : Option (List α)) (x : α) :
    goAppend s x = some (goElems s ++ [x]) := by
  cases s <;> rfl

theorem scanLoop_none : ∀ (docs : List Doc) (i : Nat) (products : Option (List Product)),
    scanLoop none docs i products =
      .ok (match docs with
        | [] => products
        | _ :: _ => some (goElems products ++ docs.map Doc.toProduct))
  | [], _, _ => rfl
  | d :: ds, i, products => by
    have ih := scanLoop_none ds (i + 1) (goAppend products d.toProduct)
    simp only [scanLoop, cursorDecode]
    simp only [reduceCtorEq, if_false]
    rw [ih, goAppend_eq]
    cases ds <;> simp [goElems]

/-- C1: a path id that is not a 24-character hexadecimal identifier makes
getProduct, updateProduct and deleteProduct answer 400 without any call to the
storage layer: the collection, its call log included, is returned as it was,
whatever the body and whatever the storage layer would have done. -/
theorem malformed_id_rejected (parseFloat : JNumber → Option Float64) (fault : Option String)
    (c : Collection) (idParam : String) (body : Body) (h : ¬ WellFormedId idParam) :
    ((getProduct fault c idParam).2.statusCode = 400 ∧ (getProduct fault c idParam).1 = c) ∧
    ((updateProduct parseFloat fault c idParam body).2.statusCode = 400 ∧
      (updateProduct parseFloat fault c idParam body).1 = c) ∧
    ((deleteProduct fault c idParam).2.statusCode = 400 ∧ (deleteProduct fault c idParam).1 = c) := by
  obtain ⟨e, he⟩ := ObjectIDFromHex_error_of_not_wf h
  simp [getProduct, updateProduct, deleteProduct, he, httpError_new, statusCode_mk,
    StatusBadRequest]

/-- C1 (witness): the ids `not-an-id` and `123` on the empty collection. -/
theorem malformed_id_rejected_witness :
    ¬ WellFormedId "not-an-id" ∧
    (getProduct none ⟨[], []⟩ "not-an-id").2.statusCode = 400 ∧
    (deleteProduct none ⟨[], []⟩ "123").1 = ⟨[], []⟩ :=
  ⟨by decide,
   (malformed_id_rejected (fun _ => none) none ⟨[], []⟩ "not-an-id" (.malformed "EOF")
      (by decide)).1.1,
   (malformed_id_rejected (fun _ => none) none ⟨[], []⟩ "123" (.malformed "EOF")
      (by decide)).2.2.2⟩

/-- C2: for a well-formed id and a lookup that does not fail, getProduct
answers 404 exactly when the collection holds no document with the id, and
otherwise answers 200 with a document of the collection that has the id. -/
theorem getProduct_notFound_iff (c : Collection) (idParam : String) (id : ObjectID)
    (hid : ObjectIDFromHex idParam = .ok id) :
    ((getProduct none c idParam).2.statusCode = 404 ↔ ¬ c.has id) ∧
    (c.has id → ∃ d ∈ c.docs, d._id = id ∧
      (getProduct none c idParam).2 = ⟨some 200, [.json (.obj (marshalProduct d.toProduct))]⟩) := by
  cases hf : c.docs.find? (fun d => d._id = id) with
  | none =>
    have hno := (find?_none_iff_not_has c id).mp hf
    refine ⟨?_, fun hh => absurd hh hno⟩
    simp [getProduct, hid, Collection.FindOne, hf, hno, httpError_new, statusCode_mk,
      StatusNotFound]
  | some d =>
    have hmem := List.mem_of_find?_eq_some hf
    have hdid : d._id = id := by simpa using List.find?_some hf
    have hhas : c.has id := ⟨d, hmem, hdid⟩
    refine ⟨?_, fun _ => ⟨d, hmem, hdid, ?_⟩⟩
    · simp [getProduct, hid, Collection.FindOne, hf, hhas, Encode_new, statusCode_mk]
    · simp only [getProduct, hid, Collection.FindOne, hf]
      rfl

/-- C2 (witness): the id of the scenario product on the collection that holds it. -/
theorem getProduct_notFound_iff_witness :
    ObjectIDFromHex "65f0a1b2c3d4e5f60718293a" = .ok sampleId ∧
    ((getProduct none penCollection "65f0a1b2c3d4e5f60718293a").2.statusCode = 404 ↔
      ¬ penCollection.has sampleId) :=
  ⟨by decide, (getProduct_notFound_iff penCollection "65f0a1b2c3d4e5f60718293a" sampleId
    (by decide)).1⟩

/-- A body with the four members name, description, price and quantity, of
the right kinds, decodes to the Product with those values and the zero id. -/
theorem Decode_payload (parseFloat : JNumber → Option Float64) (n d : String) (x q : JNumber)
    (bn bd bx bq : String) (f : Float64) (i : Int) (hx : parseFloat x = some f)
    (hq : q.parseInt = some i) :
    Decode parseFloat (.value (.obj [("name", bn, .str n), ("description", bd, .str d),
      ("price", bx, .num x), ("quantity", bq, .num q)])) = .ok ⟨NilObjectID, n, d, f, i⟩ := by
  have h1 : lookupField "name" = some .Name := by decide
  have h2 : lookupField "description" = some .Description := by decide
  have h3 : lookupField "price" = some .Price := by decide
  have h4 : lookupField "quantity" = some .Quantity := by decide
  simp only [Decode, unmarshal, decodeObject]
  unfold storeMember
  simp only [h1, h2, h3, h4, hx, hq, Product.zero]

theorem marshalDoc_toProduct (driverId : ObjectID) (p : Product) (h : p.ID ≠ NilObjectID) :
    (marshalDoc driverId p).toProduct = p := by
  cases p
  simp only [marshalDoc, Doc.toProduct] at h ⊢
  simp [h]

theorem find?_append_new (docs : List Doc) (d : Doc)
    (h : docs.any (fun x => decide (x._id = d._id)) = false) :
    (docs ++ [d]).find? (fun x => x._id = d._id) = some d := by
  have hnone : docs.find? (fun x => decide (x._id = d._id)) = none := by
    rw [List.find?_eq_none]
    intro x hx
    have := List.any_eq_false.mp h x hx
    simpa using this
  simp [List.find?_append, hnone]

/-- C3: when the body decodes to a Product `p`, the generated id is not the
zero id, and storage does not fail (the storage layer reports no fault, and
the server does not already hold the generated id, its one ground for
refusing an insert), createProduct answers 201 with `p` under the generated
id, and getProduct called next with the hexadecimal form of that id answers
200 with the same name, description, price and quantity. -/
theorem create_then_get (parseFloat : JNumber → Option Float64) (fresh driverId : ObjectID)
    (c : Collection) (body : Body) (p : Product)
    (hbody : Decode parseFloat body = .ok p) (hfresh : fresh ≠ NilObjectID)
    (hnew : ¬ c.has fresh) :
    (createProduct parseFloat fresh driverId none c body).2 =
      ⟨some 201, [.json (.obj [("ID", .str fresh.Hex), ("name", .str p.Name),
        ("description", .str p.Description), ("price", .float p.Price),
        ("quantity", .int p.Quantity)])]⟩ ∧
    (getProduct none (createProduct parseFloat fresh driverId none c body).1 fresh.Hex).2 =
      ⟨some 200, [.json (.obj [("ID", .str fresh.Hex), ("name", .str p.Name),
        ("description", .str p.Description), ("price", .float p.Price),
        ("quantity", .int p.Quantity)])]⟩ := by
  have hmid : (marshalDoc driverId { p with ID := fresh })._id = fresh := by
    simp [marshalDoc, hfresh]
  have hany : c.docs.any (fun d => decide (d._id = fresh)) = false := by
    rw [List.any_eq_false]
    intro d hd
    have hne : d._id ≠ fresh := fun h => hnew ⟨d, hd, h⟩
    simpa using hne
  have hfind := find?_append_new c.docs (marshalDoc driverId { p with ID := fresh })
    (by rw [hmid]; exact hany)
  rw [hmid] at hfind
  have htp := marshalDoc_toProduct driverId { p with ID := fresh } hfresh
  constructor
  · simp [createProduct, hbody, Collection.InsertOne, hmid, hany, Encode_WriteHeader_new,
      StatusCreated, marshalProduct]
  · simp [createProduct, hbody, Collection.InsertOne, hmid, hany, getProduct,
      ObjectIDFromHex_Hex, Collection.FindOne, hfind, htp, Encode_new, marshalProduct]

/-- C3 (witness): the scenario payload Pen, Blue ink, 1.5, 100, created under
a new id on the collection that already holds one product. -/
theorem create_then_get_witness :
    (createProduct sampleParseFloat otherId sampleId none penCollection penBody).2 =
      ⟨some 201, [.json (.obj [("ID", .str "65f0a1b2c3d4e5f60718293b"), ("name", .str "Pen"),
        ("description", .str "Blue ink"), ("price", .float ⟨0x3FF8000000000000⟩),
        ("quantity", .int 100)])]⟩ ∧
    (getProduct none (createProduct sampleParseFloat otherId sampleId none penCollection
        penBody).1 "65f0a1b2c3d4e5f60718293b").2 =
      ⟨some 200, [.json (.obj [("ID", .str "65f0a1b2c3d4e5f60718293b"), ("name", .str "Pen"),
        ("description", .str "Blue ink"), ("price", .float ⟨0x3FF8000000000000⟩),
        ("quantity", .int 100)])]⟩ :=
  create_then_get sampleParseFloat otherId sampleId penCollection penBody
    ⟨NilObjectID, "Pen", "Blue ink", ⟨0x3FF8000000000000⟩, 100⟩ (by decide) (by decide) (by decide)

/-- C4: for a well-formed id and a body that decodes to a Product `p`, when
storage does not fail, updateProduct answers 200; if a document with the id
exists, getProduct called next on the id answers 200 with the name,
description, price and quantity of `p`; if none exists, the documents are
left as they were and getProduct called next on the id answers 404. -/
theorem update_then_get (parseFloat : JNumber → Option Float64) (c : Collection)
    (idParam : String) (id : ObjectID) (body : Body) (p : Product)
    (hid : ObjectIDFromHex idParam = .ok id) (hbody : Decode parseFloat body = .ok p) :
    (updateProduct parseFloat none c idParam body).2.statusCode = 200 ∧
    (c.has id →
      (getProduct none (updateProduct parseFloat none c idParam body).1 idParam).2 =
        ⟨some 200, [.json (.obj [("ID", .str id.Hex), ("name", .str p.Name),
          ("description", .str p.Description), ("price", .float p.Price),
          ("quantity", .int p.Quantity)])]⟩) ∧
    (¬ c.has id →
      (updateProduct parseFloat none c idParam body).1.docs = c.docs ∧
      (getProduct none (updateProduct parseFloat none c idParam body).1 idParam).2.statusCode
        = 404) := by
  refine ⟨?_, ?_, ?_⟩
  · simp [updateProduct, hid, hbody, Collection.UpdateOne, Encode_WriteHeader_new, statusCode_mk,
      StatusOK]
  · intro hhas
    have hf := find?_updateFirst id p c.docs hhas
    cases hq : (updateFirst id p c.docs).find? (fun d => d._id = id) with
    | none => rw [hq] at hf; simp at hf
    | some d =>
      rw [hq] at hf
      simp only [Option.map_some', Option.some.injEq] at hf
      simp [updateProduct, hid, hbody, Collection.UpdateOne, getProduct, Collection.FindOne, hq,
        hf, Encode_new, marshalProduct]
  · intro hno
    have hall : ∀ d ∈ c.docs, d._id ≠ id := fun d hd hdid => hno ⟨d, hd, hdid⟩
    have hsame := updateFirst_of_not_mem id p c.docs hall
    have hf : c.docs.find? (fun d => d._id = id) = none := (find?_none_iff_not_has c id).mpr hno
    simp [updateProduct, hid, hbody, Collection.UpdateOne, getProduct, Collection.FindOne, hsame,
      hf, httpError_new, statusCode_mk, StatusNotFound]

/-- C4 (witness): an update of an id the empty collection does not hold. -/
theorem update_then_get_witness :
    (updateProduct sampleParseFloat none emptyCollection "65f0a1b2c3d4e5f60718293a"
      penBody).2.statusCode = 200 ∧
    (¬ emptyCollection.has sampleId →
      (updateProduct sampleParseFloat none emptyCollection "65f0a1b2c3d4e5f60718293a"
        penBody).1.docs = emptyCollection.docs ∧
      (getProduct none (updateProduct sampleParseFloat none emptyCollection
        "65f0a1b2c3d4e5f60718293a" penBody).1 "65f0a1b2c3d4e5f60718293a").2.statusCode = 404) :=
  have h := update_then_get sampleParseFloat emptyCollection "65f0a1b2c3d4e5f60718293a" sampleId
    penBody ⟨NilObjectID, "Pen", "Blue ink", ⟨0x3FF8000000000000⟩, 100⟩ (by decide) (by decide)
  ⟨h.1, h.2.2⟩

/-- C5: for a well-formed id, when storage does not fail, deleteProduct
answers 200 with the confirmation text whether or not a document with the id
existed, and getProduct called next on the same id answers 404. -/
theorem delete_then_get (c : Collection) (idParam : String) (id : ObjectID) (hwf : c.WF)
    (hid : ObjectIDFromHex idParam = .ok id) :
    (deleteProduct none c idParam).2 = ⟨some 200, [.text "Product deleted successfully"]⟩ ∧
    (getProduct none (deleteProduct none c idParam).1 idParam).2.statusCode = 404 := by
  have hf := find?_deleteFirst id c.docs hwf
  constructor
  · simp [deleteProduct, hid, Collection.DeleteOne, Write_WriteHeader_new, StatusOK]
  · simp [deleteProduct, hid, Collection.DeleteOne, getProduct, Collection.FindOne, hf,
      httpError_new, statusCode_mk, StatusNotFound]

/-- C5 (witness): deleting the scenario product from the collection that holds it. -/
theorem delete_then_get_witness :
    penCollection.WF ∧
    (deleteProduct none penCollection "65f0a1b2c3d4e5f60718293a").2 =
      ⟨some 200, [.text "Product deleted successfully"]⟩ ∧
    (getProduct none (deleteProduct none penCollection "65f0a1b2c3d4e5f60718293a").1
      "65f0a1b2c3d4e5f60718293a").2.statusCode = 404 :=
  ⟨by simp [Collection.WF, penCollection],
   delete_then_get penCollection "65f0a1b2c3d4e5f60718293a" sampleId
    (by simp [Collection.WF, penCollection]) (by decide)⟩

theorem Hex_injective (a b : ObjectID) (h : a.Hex = b.Hex) : a = b := by
  have ha := ObjectIDFromHex_Hex a
  rw [h, ObjectIDFromHex_Hex b] at ha
  simp only [Except.ok.injEq] at ha
  exact ha.symm

theorem marshalProduct_toProduct_injective :
    Function.Injective (fun d : Doc => marshalProduct d.toProduct) := by
  intro a b h
  cases a; cases b
  simp only [marshalProduct, Doc.toProduct, List.cons.injEq, Prod.mk.injEq, JScalar.str.injEq,
    JScalar.float.injEq, JScalar.int.injEq, true_and, and_true] at h
  obtain ⟨h1, h2, h3, h4, h5⟩ := h
  simp only [Doc.mk.injEq]
  exact ⟨Hex_injective _ _ h1, h2, h3, h4, h5⟩

/-- C6 (the code at the failing input, and beside it): when the scan and every
decode succeed, on a collection without documents getAllProducts answers 200
with the body `null`, which is no JSON array, so no sequence of length 0; on
every other collection it answers 200 with a JSON array that holds the
encoding of each document in order, has as many elements as the collection
has documents, has no duplicates and omits no stored document. -/
theorem getAllProducts_body (c : Collection) (hwf : c.WF) :
    (c.docs = [] →
      (getAllProducts none c).2 = ⟨some 200, [.json .null]⟩ ∧
      ∀ items, (getAllProducts none c).2 ≠ ⟨some 200, [.json (.arr items)]⟩) ∧
    (c.docs ≠ [] →
      ∃ items, (getAllProducts none c).2 = ⟨some 200, [.json (.arr items)]⟩ ∧
        items = c.docs.map (fun d => marshalProduct d.toProduct) ∧
        items.length = c.docs.length ∧ items.Nodup ∧
        ∀ d ∈ c.docs, marshalProduct d.toProduct ∈ items) := by
  have h1 := scanLoop_none c.docs 0 none
  have hnd : (c.docs.map (fun d => marshalProduct d.toProduct)).Nodup :=
    (List.Nodup.of_map _ hwf).map marshalProduct_toProduct_injective
  constructor
  · intro hdocs
    rw [hdocs] at h1
    have hbody : (getAllProducts none c).2 = ⟨some 200, [.json .null]⟩ := by
      simp only [getAllProducts, hdocs, h1, Encode_new, marshalProducts]
    refine ⟨hbody, ?_⟩
    intro items h
    rw [hbody] at h
    simp at h
  · intro hne
    refine ⟨c.docs.map (fun d => marshalProduct d.toProduct), ?_, rfl, by simp, hnd, ?_⟩
    · cases hdocs : c.docs with
      | nil => exact absurd hdocs hne
      | cons d ds =>
        rw [hdocs] at h1
        simp only [getAllProducts, hdocs, h1, Encode_new]
        simp [marshalProducts, goElems]
    · intro d hd
      exact List.mem_map_of_mem _ hd

/-- C6 (witness): the empty collection, and the collection that holds the
scenario product only. -/
theorem getAllProducts_body_witness :
    ((getAllProducts none emptyCollection).2 = ⟨some 200, [.json .null]⟩ ∧
      ∀ items, (getAllProducts none emptyCollection).2 ≠ ⟨some 200, [.json (.arr items)]⟩) ∧
    (∃ items, (getAllProducts none penCollection).2 = ⟨some 200, [.json (.arr items)]⟩ ∧
        items = penCollection.docs.map (fun d => marshalProduct d.toProduct) ∧
        items.length = penCollection.docs.length ∧ items.Nodup ∧
        ∀ d ∈ penCollection.docs, marshalProduct d.toProduct ∈ items) :=
  ⟨(getAllProducts_body emptyCollection (by simp [Collection.WF, emptyCollection])).1 rfl,
   (getAllProducts_body penCollection (by simp [Collection.WF, penCollection])).2
    (by simp [penCollection])⟩

/-- C7 (the code at the failing input): on a collection without documents
getAllProducts answers 200 and the value it encodes is `null`, the encoding
of the nil slice, not the empty array. -/
theorem getAllProducts_empty_null (calls : List Call) :
    (getAllProducts none ⟨[], calls⟩).2 = ⟨some 200, [.json .null]⟩ ∧
    (getAllProducts none ⟨[], calls⟩).2 ≠ ⟨some 200, [.json (.arr [])]⟩ := by
  constructor
  · rfl
  · intro h
    have h2 : (getAllProducts none ⟨[], calls⟩).2 = ⟨some 200, [.json .null]⟩ := rfl
    rw [h2] at h
    simp at h

/-! ## The decoder: members that bind to no field, members that bind to the id -/

theorem saveError_withID (d : DecodeState) (e : GoError) (id : ObjectID) :
    (d.withID id).saveError e = (d.saveError e).withID id := by
  cases hs : d.savedError <;> simp [DecodeState.saveError, DecodeState.withID, hs]

theorem UnmarshalJSON_withID (parseFloat : JNumber → Option Float64) (a : ObjectID)
    (c : ObjectID) (b : String) (v : Json) :
    (∀ e, UnmarshalJSON parseFloat a b v = .error e → UnmarshalJSON parseFloat c b v = .error e) ∧
    (∀ x, UnmarshalJSON parseFloat a b v = .ok x → ∃ y, UnmarshalJSON parseFloat c b v = .ok y) := by
  by_cases hb : b = "null"
  · exact ⟨fun e h => by simp [UnmarshalJSON, hb] at h,
      fun x _ => ⟨c, by simp [UnmarshalJSON, hb]⟩⟩
  · have heq : UnmarshalJSON parseFloat a b v = UnmarshalJSON parseFloat c b v := by
      simp only [UnmarshalJSON, hb, if_false]
    rw [heq]
    exact ⟨fun e h => h, fun x h => ⟨x, h⟩⟩

theorem storeMember_withID (parseFloat : JNumber → Option Float64) (d : DecodeState)
    (id : ObjectID) (k b : String) (v : Json) :
    (∀ e, storeMember parseFloat d k b v = .error e →
      storeMember parseFloat (d.withID id) k b v = .error e) ∧
    (∀ r, storeMember parseFloat d k b v = .ok r →
      ∃ id2, storeMember parseFloat (d.withID id) k b v = .ok (r.withID id2)) := by
  unfold storeMember
  cases hk : lookupField k with
  | none =>
    exact ⟨fun e h => by simp at h, fun r h => ⟨id, by simp at h; subst h; rfl⟩⟩
  | some f =>
    cases f with
    | ID =>
      have hu := UnmarshalJSON_withID parseFloat d.product.ID id b v
      simp only
      constructor
      · intro e h
        cases hq : UnmarshalJSON parseFloat d.product.ID b v with
        | error e2 =>
          rw [hq] at h
          simp only [Except.error.injEq] at h
          subst h
          have := hu.1 e2 hq
          simp only [DecodeState.withID, this]
        | ok x => rw [hq] at h; simp at h
      · intro r h
        cases hq : UnmarshalJSON parseFloat d.product.ID b v with
        | error e2 => rw [hq] at h; simp at h
        | ok x =>
          rw [hq] at h
          simp only [Except.ok.injEq] at h
          subst h
          obtain ⟨y, hy⟩ := hu.2 x hq
          exact ⟨y, by simp only [DecodeState.withID, hy]⟩
    | Name =>
      cases v <;> simp only [saveError_withID] <;>
        exact ⟨fun e h => by simp at h, fun r h => ⟨id, by simp at h; subst h; rfl⟩⟩
    | Description =>
      cases v <;> simp only [saveError_withID] <;>
        exact ⟨fun e h => by simp at h, fun r h => ⟨id, by simp at h; subst h; rfl⟩⟩
    | Price =>
      cases v with
      | num n =>
        simp only
        cases parseFloat n <;> simp only [saveError_withID] <;>
          exact ⟨fun e h => by simp at h, fun r h => ⟨id, by simp at h; subst h; rfl⟩⟩
      | _ =>
        simp only [saveError_withID]
        exact ⟨fun e h => by simp at h, fun r h => ⟨id, by simp at h; subst h; rfl⟩⟩
    | Quantity =>
      cases v with
      | num n =>
        simp only
        cases n.parseInt <;> simp only [saveError_withID] <;>
          exact ⟨fun e h => by simp at h, fun r h => ⟨id, by simp at h; subst h; rfl⟩⟩
      | _ =>
        simp only [saveError_withID]
        exact ⟨fun e h => by simp at h, fun r h => ⟨id, by simp at h; subst h; rfl⟩⟩

theorem decodeObject_withID (parseFloat : JNumber → Option Float64) :
    ∀ (ms : List (String × String × Json)) (d : DecodeState) (id : ObjectID),
    (∀ e, decodeObject parseFloat ms d = .error e →
      decodeObject parseFloat ms (d.withID id) = .error e) ∧
    (∀ r, decodeObject parseFloat ms d = .ok r →
      ∃ id2, decodeObject parseFloat ms (d.withID id) = .ok (r.withID id2))
  | [], d, id => ⟨fun e h => by simp [decodeObject] at h,
      fun r h => ⟨id, by simp only [decodeObject, Except.ok.injEq] at h ⊢; rw [h]⟩⟩
  | (k, b, v) :: ms, d, id => by
    have hs := storeMember_withID parseFloat d id k b v
    cases hq : storeMember parseFloat d k b v with
    | error e2 =>
      have h1 := hs.1 e2 hq
      simp only [decodeObject, hq, h1]
      exact ⟨fun e h => h, fun r h => by simp at h⟩
    | ok d2 =>
      obtain ⟨id2, h2⟩ := hs.2 d2 hq
      simp only [decodeObject, hq, h2]
      exact decodeObject_withID parseFloat ms d2 id2

theorem decodeObject_append (parseFloat : JNumber → Option Float64) :
    ∀ (a b : List (String × String × Json)) (d : DecodeState),
    decodeObject parseFloat (a ++ b) d =
      match decodeObject parseFloat a d with
      | .error e => .error e
      | .ok r => decodeObject parseFloat b r
  | [], b, d => rfl
  | (k, t, v) :: a, b, d => by
    simp only [List.cons_append, decodeObject]
    cases storeMember parseFloat d k t v with
    | error e => rfl
    | ok d2 => exact decodeObject_append parseFloat a b d2

theorem storeMember_accepted (parseFloat : JNumber → Option Float64) (r : DecodeState)
    (key b : String) (v : Json)
    (hacc : lookupField key = none ∨
      (lookupField key = some .ID ∧ ∃ id, UnmarshalJSON parseFloat NilObjectID b v = .ok id)) :
    ∃ x, storeMember parseFloat r key b v = .ok (r.withID x) := by
  rcases hacc with hk | ⟨hk, id, hv⟩
  · exact ⟨r.product.ID, by unfold storeMember; simp only [hk]; rfl⟩
  · obtain ⟨y, hy⟩ := (UnmarshalJSON_withID parseFloat NilObjectID r.product.ID b v).2 id hv
    exact ⟨y, by unfold storeMember; simp only [hk, hy]; rfl⟩

theorem storeMember_rejected (parseFloat : JNumber → Option Float64) (r : DecodeState)
    (key b : String) (v : Json) (e : GoError) (hk : lookupField key = some .ID)
    (hrej : UnmarshalJSON parseFloat NilObjectID b v = .error e) :
    storeMember parseFloat r key b v = .error e := by
  have hy := (UnmarshalJSON_withID parseFloat NilObjectID r.product.ID b v).1 e hrej
  unfold storeMember
  simp only [hk, hy]

theorem Decode_with_member (parseFloat : JNumber → Option Float64)
    (ms₁ ms₂ : List (String × String × Json)) (key b : String) (v : Json)
    (hacc : lookupField key = none ∨
      (lookupField key = some .ID ∧ ∃ id, UnmarshalJSON parseFloat NilObjectID b v = .ok id)) :
    (∀ e, Decode parseFloat (.value (.obj (ms₁ ++ ms₂))) = .error e →
      Decode parseFloat (.value (.obj (ms₁ ++ (key, b, v) :: ms₂))) = .error e) ∧
    (∀ p, Decode parseFloat (.value (.obj (ms₁ ++ ms₂))) = .ok p →
      ∃ id, Decode parseFloat (.value (.obj (ms₁ ++ (key, b, v) :: ms₂))) =
        .ok { p with ID := id }) := by
  simp only [Decode, unmarshal, decodeObject_append]
  cases h1 : decodeObject parseFloat ms₁ ⟨Product.zero, none⟩ with
  | error e1 => exact ⟨fun e h => h, fun p h => by simp at h⟩
  | ok r =>
    obtain ⟨x, hx⟩ := storeMember_accepted parseFloat r key b v hacc
    simp only [decodeObject, hx]
    have hw := decodeObject_withID parseFloat ms₂ r x
    cases h2 : decodeObject parseFloat ms₂ r with
    | error e2 =>
      rw [hw.1 e2 h2]
      exact ⟨fun e h => h, fun p h => by simp at h⟩
    | ok r2 =>
      obtain ⟨id2, h3⟩ := hw.2 r2 h2
      rw [h3]
      simp only [DecodeState.withID]
      cases hs : r2.savedError with
      | some e3 => exact ⟨fun e h => h, fun p h => by simp at h⟩
      | none =>
        refine ⟨fun e h => by simp at h, fun p h => ⟨id2, ?_⟩⟩
        simp only [Except.ok.injEq] at h
        rw [h]

theorem Decode_rejected_member (parseFloat : JNumber → Option Float64)
    (ms₁ ms₂ : List (String × String × Json)) (key b : String) (v : Json) (e : GoError)
    (hk : lookupField key = some .ID)
    (hrej : UnmarshalJSON parseFloat NilObjectID b v = .error e) :
    ∃ e2, Decode parseFloat (.value (.obj (ms₁ ++ (key, b, v) :: ms₂))) = .error e2 ∧
      (ms₁ = [] → e2 = e) := by
  simp only [Decode, unmarshal, decodeObject_append]
  cases h1 : decodeObject parseFloat ms₁ ⟨Product.zero, none⟩ with
  | error e1 =>
    refine ⟨e1, rfl, ?_⟩
    intro hnil
    subst hnil
    simp [decodeObject] at h1
  | ok r =>
    have hx := storeMember_rejected parseFloat r key b v e hk hrej
    simp only [decodeObject, hx]
    exact ⟨e, rfl, fun _ => rfl⟩

theorem createProduct_created (parseFloat : JNumber → Option Float64) (fresh driverId : ObjectID)
    (fault : Option String) (c : Collection) (body : Body)
    (h : (createProduct parseFloat fresh driverId fault c body).2.statusCode = 201) :
    ∃ p, Decode parseFloat body = .ok p ∧
      (createProduct parseFloat fresh driverId fault c body).2 =
        ⟨some 201, [.json (.obj [("ID", .str fresh.Hex), ("name", .str p.Name),
          ("description", .str p.Description), ("price", .float p.Price),
          ("quantity", .int p.Quantity)])]⟩ ∧
      (fresh ≠ NilObjectID → (createProduct parseFloat fresh driverId fault c body).1.docs =
        c.docs ++ [⟨fresh, p.Name, p.Description, p.Price, p.Quantity⟩]) := by
  cases hd : Decode parseFloat body with
  | error e =>
    simp [createProduct, hd, httpError_new, statusCode_mk, StatusBadRequest] at h
  | ok p =>
    refine ⟨p, rfl, ?_⟩
    cases fault with
    | some msg =>
      simp [createProduct, hd, Collection.InsertOne, httpError_new, statusCode_mk,
        StatusInternalServerError] at h
    | none =>
      cases hany : c.docs.any
          (fun d => decide (d._id = (marshalDoc driverId { p with ID := fresh })._id)) with
      | true =>
        simp [createProduct, hd, Collection.InsertOne, hany, httpError_new, statusCode_mk,
          StatusInternalServerError] at h
      | false =>
        constructor
        · simp [createProduct, hd, Collection.InsertOne, hany, Encode_WriteHeader_new,
            StatusCreated, marshalProduct]
        · intro hfresh
          have hmid : (marshalDoc driverId { p with ID := fresh })._id = fresh := by
            simp [marshalDoc, hfresh]
          have hany2 : ¬ ∃ x ∈ c.docs, x._id = fresh := by simpa [hmid] using hany
          simp [createProduct, hd, Collection.InsertOne, hany2, marshalDoc, hfresh]

/-- C9 (amended): a member of the create body whose key binds to no Product
field (such as `_id`), or whose key binds to the identifier (`ID` in any
letter case) with a value the identifier decoder accepts, is ignored:
createProduct does, and answers, exactly what it does for the same body
without the member; and when it answers 201 the echoed id is the generated
one, which (unless it is the zero id) is also the id of the stored document.
A member whose key binds to the identifier with a value the identifier
decoder rejects makes createProduct answer 400 with the message of a decode
error (that of the decoder when the member comes first) and return the
collection as it was, whatever the storage layer would have done. -/
theorem create_ignores_identifier (parseFloat : JNumber → Option Float64)
    (fresh driverId : ObjectID) (fault : Option String) (c : Collection)
    (ms₁ ms₂ : List (String × String × Json)) (key b : String) (v : Json)
    (badKey badText : String) (badValue : Json) (e : GoError)
    (hacc : lookupField key = none ∨
      (lookupField key = some .ID ∧ ∃ id, UnmarshalJSON parseFloat NilObjectID b v = .ok id))
    (hbad : lookupField badKey = some .ID)
    (hrej : UnmarshalJSON parseFloat NilObjectID badText badValue = .error e) :
    (createProduct parseFloat fresh driverId fault c (.value (.obj (ms₁ ++ (key, b, v) :: ms₂))) =
      createProduct parseFloat fresh driverId fault c (.value (.obj (ms₁ ++ ms₂))) ∧
    ((createProduct parseFloat fresh driverId fault c
        (.value (.obj (ms₁ ++ (key, b, v) :: ms₂)))).2.statusCode = 201 →
      ∃ p, Decode parseFloat (.value (.obj (ms₁ ++ ms₂))) = .ok p ∧
        (createProduct parseFloat fresh driverId fault c
          (.value (.obj (ms₁ ++ (key, b, v) :: ms₂)))).2 =
          ⟨some 201, [.json (.obj [("ID", .str fresh.Hex), ("name", .str p.Name),
            ("description", .str p.Description), ("price", .float p.Price),
            ("quantity", .int p.Quantity)])]⟩ ∧
        (fresh ≠ NilObjectID →
          (createProduct parseFloat fresh driverId fault c
            (.value (.obj (ms₁ ++ (key, b, v) :: ms₂)))).1.docs =
            c.docs ++ [⟨fresh, p.Name, p.Description, p.Price, p.Quantity⟩]))) ∧
    (∃ e2, createProduct parseFloat fresh driverId fault c
        (.value (.obj (ms₁ ++ (badKey, badText, badValue) :: ms₂))) =
        (c, ⟨some 400, [.text (e2.Error ++ "\n")]⟩) ∧ (ms₁ = [] → e2 = e)) := by
  have hd := Decode_with_member parseFloat ms₁ ms₂ key b v hacc
  have heq : createProduct parseFloat fresh driverId fault c
      (.value (.obj (ms₁ ++ (key, b, v) :: ms₂))) =
      createProduct parseFloat fresh driverId fault c (.value (.obj (ms₁ ++ ms₂))) := by
    cases hq : Decode parseFloat (.value (.obj (ms₁ ++ ms₂))) with
    | error e => simp only [createProduct, hq, hd.1 e hq]
    | ok p =>
      obtain ⟨id, hid⟩ := hd.2 p hq
      simp only [createProduct, hq, hid]
  refine ⟨⟨heq, ?_⟩, ?_⟩
  · rw [heq]
    exact createProduct_created parseFloat fresh driverId fault c _
  · obtain ⟨e2, he2, hfirst⟩ :=
      Decode_rejected_member parseFloat ms₁ ms₂ badKey badText badValue e hbad hrej
    exact ⟨e2, by simp only [createProduct, he2, httpError_new, StatusBadRequest], hfirst⟩

/-- C9 (witness): the scenario payload with a well-formed identifier member in
front, and with the identifier member `"ID": 5` in front. -/
theorem create_ignores_identifier_witness :
    (createProduct sampleParseFloat sampleId otherId none emptyCollection
      (.value (.obj ([] ++ ("id", quote "65f0a1b2c3d4e5f60718293b",
        .str "65f0a1b2c3d4e5f60718293b") :: penMembers))) =
    createProduct sampleParseFloat sampleId otherId none emptyCollection
      (.value (.obj ([] ++ penMembers)))) ∧
    (∃ e2 : GoError, createProduct sampleParseFloat sampleId otherId none emptyCollection
        (.value (.obj ([] ++ ("ID", "5", .num ⟨false, 5, [], none⟩) :: penMembers))) =
        (emptyCollection, ⟨some 400, [.text (e2.Error ++ "\n")]⟩) ∧
      (([] : List (String × String × Json)) = [] → e2 = .NotExtendedJSON)) :=
  have h := create_ignores_identifier sampleParseFloat sampleId otherId none emptyCollection []
    penMembers "id" (quote "65f0a1b2c3d4e5f60718293b") (.str "65f0a1b2c3d4e5f60718293b")
    "ID" "5" (.num ⟨false, 5, [], none⟩) .NotExtendedJSON
    (Or.inr ⟨by decide, otherId, by decide⟩) (by decide) (by decide)
  ⟨h.1.1, h.2⟩

/-- C9 (counterexample): with the identifier member `"ID": 5` in front of the
scenario payload createProduct answers 400 and stores nothing, while for the
payload alone it answers 201. -/
theorem create_rejects_bad_identifier :
    (createProduct sampleParseFloat sampleId otherId none emptyCollection
      (.value (.obj (("ID", "5", .num ⟨false, 5, [], none⟩) :: penMembers)))).2 =
      ⟨some 400, [.text "not an extended JSON ObjectID\n"]⟩ ∧
    (createProduct sampleParseFloat sampleId otherId none emptyCollection
      (.value (.obj (("ID", "5", .num ⟨false, 5, [], none⟩) :: penMembers)))).1 =
      emptyCollection ∧
    (createProduct sampleParseFloat sampleId otherId none emptyCollection
      (.value (.obj penMembers))).2.statusCode = 201 := by
  decide

/-- C8 (amended): a body that does not decode makes createProduct, and
updateProduct on a well-formed id, answer 400 with the message of the decode
error followed by a newline; an id that does not parse makes getProduct,
updateProduct and deleteProduct answer 400 with the fixed text
`Invalid ID format` followed by a newline; in each case the collection is
returned as it was. -/
theorem client_error_bodies (parseFloat : JNumber → Option Float64) (fresh driverId : ObjectID)
    (fault : Option String) (c : Collection) (badBody anyBody : Body) (errBody errId : GoError)
    (badId goodId : String) (id : ObjectID)
    (hbody : Decode parseFloat badBody = .error errBody)
    (hbad : ObjectIDFromHex badId = .error errId)
    (hgood : ObjectIDFromHex goodId = .ok id) :
    createProduct parseFloat fresh driverId fault c badBody =
      (c, ⟨some 400, [.text (errBody.Error ++ "\n")]⟩) ∧
    updateProduct parseFloat fault c goodId badBody =
      (c, ⟨some 400, [.text (errBody.Error ++ "\n")]⟩) ∧
    getProduct fault c badId = (c, ⟨some 400, [.text "Invalid ID format\n"]⟩) ∧
    updateProduct parseFloat fault c badId anyBody =
      (c, ⟨some 400, [.text "Invalid ID format\n"]⟩) ∧
    deleteProduct fault c badId = (c, ⟨some 400, [.text "Invalid ID format\n"]⟩) := by
  refine ⟨?_, ?_, ?_, ?_, ?_⟩
  · simp only [createProduct, hbody, httpError_new, StatusBadRequest]
  · simp only [updateProduct, hgood, hbody, httpError_new, StatusBadRequest]
  · simp only [getProduct, hbad, httpError_new, StatusBadRequest]
    rfl
  · simp only [updateProduct, hbad, httpError_new, StatusBadRequest]
    rfl
  · simp only [deleteProduct, hbad, httpError_new, StatusBadRequest]
    rfl

/-- C8 (witness): a truncated body and the id `not-an-id`. -/
theorem client_error_bodies_witness :
    createProduct sampleParseFloat sampleId otherId none penCollection
        (.malformed "unexpected EOF") =
      (penCollection, ⟨some 400, [.text "unexpected EOF\n"]⟩) ∧
    updateProduct sampleParseFloat none penCollection "65f0a1b2c3d4e5f60718293a"
        (.malformed "unexpected EOF") =
      (penCollection, ⟨some 400, [.text "unexpected EOF\n"]⟩) ∧
    getProduct none penCollection "not-an-id" =
      (penCollection, ⟨some 400, [.text "Invalid ID format\n"]⟩) ∧
    updateProduct sampleParseFloat none penCollection "not-an-id" penBody =
      (penCollection, ⟨some 400, [.text "Invalid ID format\n"]⟩) ∧
    deleteProduct none penCollection "not-an-id" =
      (penCollection, ⟨some 400, [.text "Invalid ID format\n"]⟩) :=
  client_error_bodies sampleParseFloat sampleId otherId none penCollection
    (.malformed "unexpected EOF") penBody (.SyntaxError "unexpected EOF") .ErrInvalidHex
    "not-an-id" "65f0a1b2c3d4e5f60718293a" sampleId (by decide) (by decide) (by decide)

/-- C8 (counterexample): the id `123` fails to parse with the error
`the provided hex string is not a valid ObjectID`, and the body of the 400
answer of getProduct is the fixed text `Invalid ID format`, not that message,
with or without the newline. -/
theorem invalid_id_body_is_fixed_text :
    ObjectIDFromHex "123" = .error .ErrInvalidHex ∧
    GoError.ErrInvalidHex.Error = "the provided hex string is not a valid ObjectID" ∧
    (getProduct none emptyCollection "123").2 = ⟨some 400, [.text "Invalid ID format\n"]⟩ ∧
    (getProduct none emptyCollection "123").2.body ≠ [.text GoError.ErrInvalidHex.Error] ∧
    (getProduct none emptyCollection "123").2.body ≠
      [.text (GoError.ErrInvalidHex.Error ++ "\n")] := by
  decide

/-! ## The decoder: fields no member binds to -/

theorem saveError_product (d : DecodeState) (e : GoError) : (d.saveError e).product = d.product := by
  cases hs : d.savedError <;> simp [DecodeState.saveError, hs]

theorem storeMember_frame (parseFloat : JNumber → Option Float64) (d r : DecodeState)
    (k b : String) (v : Json) (h : storeMember parseFloat d k b v = .ok r) :
    (lookupField k ≠ some .Name → r.product.Name = d.product.Name) ∧
    (lookupField k ≠ some .Description → r.product.Description = d.product.Description) ∧
    (lookupField k ≠ some .Price → r.product.Price = d.product.Price) ∧
    (lookupField k ≠ some .Quantity → r.product.Quantity = d.product.Quantity) := by
  unfold storeMember at h
  cases hk : lookupField k with
  | none =>
    simp only [hk, Except.ok.injEq] at h
    subst h
    simp
  | some f =>
    rw [hk] at h
    cases f with
    | ID =>
      simp only at h
      cases hq : UnmarshalJSON parseFloat d.product.ID b v with
      | error e => rw [hq] at h; simp at h
      | ok x =>
        rw [hq] at h
        simp only [Except.ok.injEq] at h
        subst h
        simp
    | Name =>
      cases v <;> simp only [Except.ok.injEq] at h <;> subst h <;> simp [saveError_product]
    | Description =>
      cases v <;> simp only [Except.ok.injEq] at h <;> subst h <;> simp [saveError_product]
    | Price =>
      cases v with
      | num n =>
        simp only at h
        cases hp : parseFloat n <;> rw [hp] at h <;> simp only [Except.ok.injEq] at h <;>
          subst h <;> simp [saveError_product]
      | _ => simp only [Except.ok.injEq] at h; subst h; simp [saveError_product]
    | Quantity =>
      cases v with
      | num n =>
        simp only at h
        cases hp : n.parseInt <;> rw [hp] at h <;> simp only [Except.ok.injEq] at h <;>
          subst h <;> simp [saveError_product]
      | _ => simp only [Except.ok.injEq] at h; subst h; simp [saveError_product]

theorem decodeObject_frame (parseFloat : JNumber → Option Float64) :
    ∀ (ms : List (String × String × Json)) (d r : DecodeState),
    decodeObject parseFloat ms d = .ok r →
    ((∀ kv ∈ ms, lookupField kv.1 ≠ some .Name) → r.product.Name = d.product.Name) ∧
    ((∀ kv ∈ ms, lookupField kv.1 ≠ some .Description) →
      r.product.Description = d.product.Description) ∧
    ((∀ kv ∈ ms, lookupField kv.1 ≠ some .Price) → r.product.Price = d.product.Price) ∧
    ((∀ kv ∈ ms, lookupField kv.1 ≠ some .Quantity) → r.product.Quantity = d.product.Quantity)
  | [], d, r, h => by
    simp only [decodeObject, Except.ok.injEq] at h
    subst h
    simp
  | (k, b, v) :: ms, d, r, h => by
    simp only [decodeObject] at h
    cases hq : storeMember parseFloat d k b v with
    | error e => rw [hq] at h; simp at h
    | ok d2 =>
      rw [hq] at h
      have h1 := storeMember_frame parseFloat d d2 k b v hq
      have h2 := decodeObject_frame parseFloat ms d2 r h
      refine ⟨?_, ?_, ?_, ?_⟩
      · intro hall
        rw [h2.1 (fun kv hkv => hall kv (by simp [hkv])), h1.1 (hall (k, b, v) (by simp))]
      · intro hall
        rw [h2.2.1 (fun kv hkv => hall kv (by simp [hkv])), h1.2.1 (hall (k, b, v) (by simp))]
      · intro hall
        rw [h2.2.2.1 (fun kv hkv => hall kv (by simp [hkv])), h1.2.2.1 (hall (k, b, v) (by simp))]
      · intro hall
        rw [h2.2.2.2 (fun kv hkv => hall kv (by simp [hkv])), h1.2.2.2 (hall (k, b, v) (by simp))]

theorem Decode_omitted (parseFloat : JNumber → Option Float64)
    (ms : List (String × String × Json))
    (p : Product) (h : Decode parseFloat (.value (.obj ms)) = .ok p) :
    ((∀ kv ∈ ms, lookupField kv.1 ≠ some .Name) → p.Name = "") ∧
    ((∀ kv ∈ ms, lookupField kv.1 ≠ some .Description) → p.Description = "") ∧
    ((∀ kv ∈ ms, lookupField kv.1 ≠ some .Price) → p.Price = ⟨0⟩) ∧
    ((∀ kv ∈ ms, lookupField kv.1 ≠ some .Quantity) → p.Quantity = 0) := by
  simp only [Decode, unmarshal] at h
  cases hq : decodeObject parseFloat ms ⟨Product.zero, none⟩ with
  | error e => rw [hq] at h; simp at h
  | ok r =>
    rw [hq] at h
    simp only at h
    cases hs : r.savedError with
    | some e => rw [hs] at h; simp at h
    | none =>
      rw [hs] at h
      simp only [Except.ok.injEq] at h
      subst h
      exact decodeObject_frame parseFloat ms _ r hq

/-- C10: when updateProduct answers 200 on a collection with unique ids, the
id parsed, the body decoded to a Product `p`, and the documents afterwards
are the documents before with the name, description, price and quantity of
every document under that id replaced by those of `p`, its `_id` and every
other document as they were; and a field that no member of the body object
binds to has its zero value in `p`, so it is overwritten with the zero value. -/
theorem update_replaces_fields (parseFloat : JNumber → Option Float64) (fault : Option String)
    (c : Collection) (idParam : String) (body : Body) (hwf : c.WF)
    (hok : (updateProduct parseFloat fault c idParam body).2.statusCode = 200) :
    ∃ id p, ObjectIDFromHex idParam = .ok id ∧ Decode parseFloat body = .ok p ∧
      (updateProduct parseFloat fault c idParam body).1.docs =
        c.docs.map (fun d => if d._id = id then
          { _id := d._id, name := p.Name, description := p.Description, price := p.Price,
            quantity := p.Quantity } else d) ∧
      ∀ ms, body = .value (.obj ms) →
        ((∀ kv ∈ ms, lookupField kv.1 ≠ some .Name) → p.Name = "") ∧
        ((∀ kv ∈ ms, lookupField kv.1 ≠ some .Description) → p.Description = "") ∧
        ((∀ kv ∈ ms, lookupField kv.1 ≠ some .Price) → p.Price = ⟨0⟩) ∧
        ((∀ kv ∈ ms, lookupField kv.1 ≠ some .Quantity) → p.Quantity = 0) := by
  cases hid : ObjectIDFromHex idParam with
  | error e => simp [updateProduct, hid, httpError_new, statusCode_mk, StatusBadRequest] at hok
  | ok id =>
    cases hd : Decode parseFloat body with
    | error e =>
      simp [updateProduct, hid, hd, httpError_new, statusCode_mk, StatusBadRequest] at hok
    | ok p =>
      cases fault with
      | some msg =>
        simp [updateProduct, hid, hd, Collection.UpdateOne, httpError_new, statusCode_mk,
          StatusInternalServerError] at hok
      | none =>
        refine ⟨id, p, rfl, rfl, ?_, ?_⟩
        · simp only [updateProduct, hid, hd, Collection.UpdateOne]
          rw [updateFirst_eq_map id p c.docs hwf]
          rfl
        · intro ms hms
          subst hms
          exact Decode_omitted parseFloat ms p hd

/-- C10 (witness): an update of the scenario product with a body that only names it. -/
theorem update_replaces_fields_witness :
    penCollection.WF ∧
    (updateProduct sampleParseFloat none penCollection "65f0a1b2c3d4e5f60718293a"
      (.value (.obj [("name", quote "Pencil", .str "Pencil")]))).2.statusCode = 200 ∧
    ∃ id p, ObjectIDFromHex "65f0a1b2c3d4e5f60718293a" = .ok id ∧
      Decode sampleParseFloat (.value (.obj [("name", quote "Pencil", .str "Pencil")])) = .ok p ∧
      (updateProduct sampleParseFloat none penCollection "65f0a1b2c3d4e5f60718293a"
        (.value (.obj [("name", quote "Pencil", .str "Pencil")]))).1.docs =
        penCollection.docs.map (fun d => if d._id = id then
          { _id := d._id, name := p.Name, description := p.Description, price := p.Price,
            quantity := p.Quantity } else d) ∧
      ∀ ms, (.value (.obj [("name", quote "Pencil", .str "Pencil")]) : Body) = .value (.obj ms) →
        ((∀ kv ∈ ms, lookupField kv.1 ≠ some .Name) → p.Name = "") ∧
        ((∀ kv ∈ ms, lookupField kv.1 ≠ some .Description) → p.Description = "") ∧
        ((∀ kv ∈ ms, lookupField kv.1 ≠ some .Price) → p.Price = ⟨0⟩) ∧
        ((∀ kv ∈ ms, lookupField kv.1 ≠ some .Quantity) → p.Quantity = 0) :=
  ⟨by simp [Collection.WF, penCollection], by decide,
   update_replaces_fields sampleParseFloat none penCollection "65f0a1b2c3d4e5f60718293a"
    (.value (.obj [("name", quote "Pencil", .str "Pencil")])) (by simp [Collection.WF, penCollection])
    (by decide)⟩

/-! ## The unique index is kept by every handler -/

theorem WF_emptyCollection : emptyCollection.WF := by
  simp [Collection.WF, emptyCollection]

theorem WF_createProduct (parseFloat : JNumber → Option Float64) (fresh driverId : ObjectID)
    (fault : Option String) (c : Collection) (body : Body) (h : c.WF) :
    (createProduct parseFloat fresh driverId fault c body).1.WF := by
  cases hd : Decode parseFloat body with
  | error e => simpa only [createProduct, hd] using h
  | ok p =>
    cases fault with
    | some msg => simpa only [createProduct, hd, Collection.InsertOne, Collection.WF] using h
    | none =>
      cases hany : c.docs.any
          (fun d => decide (d._id = (marshalDoc driverId { p with ID := fresh })._id)) with
      | true =>
        simp only [createProduct, hd, Collection.InsertOne, hany, if_true, Collection.WF]
        exact h
      | false =>
        simp only [createProduct, hd, Collection.InsertOne, hany, Collection.WF, List.map_append,
          List.map_cons, List.map_nil]
        have hnot : (marshalDoc driverId { p with ID := fresh })._id ∉
            c.docs.map (fun d => d._id) := by
          intro hmem
          obtain ⟨x, hx, hxid⟩ := List.mem_map.mp hmem
          have := List.any_eq_false.mp hany x hx
          simp [hxid] at this
        simp only [Bool.false_eq_true, if_false]
        rw [List.map_append, List.nodup_append]
        refine ⟨h, List.nodup_singleton _, ?_⟩
        intro a ha hb
        have hb2 := List.mem_singleton.mp hb
        subst hb2
        exact hnot ha

theorem WF_updateProduct (parseFloat : JNumber → Option Float64) (fault : Option String)
    (c : Collection) (idParam : String) (body : Body) (h : c.WF) :
    (updateProduct parseFloat fault c idParam body).1.WF := by
  cases hid : ObjectIDFromHex idParam with
  | error e => simpa only [updateProduct, hid] using h
  | ok id =>
    cases hd : Decode parseFloat body with
    | error e => simpa only [updateProduct, hid, hd] using h
    | ok p =>
      cases fault with
      | some msg =>
        simpa only [updateProduct, hid, hd, Collection.UpdateOne, Collection.WF] using h
      | none =>
        simp only [updateProduct, hid, hd, Collection.UpdateOne, Collection.WF,
          map_id_updateFirst]
        exact h

theorem WF_deleteProduct (fault : Option String) (c : Collection) (idParam : String)
    (h : c.WF) : (deleteProduct fault c idParam).1.WF := by
  cases hid : ObjectIDFromHex idParam with
  | error e => simpa only [deleteProduct, hid] using h
  | ok id =>
    cases fault with
    | some msg => simpa only [deleteProduct, hid, Collection.DeleteOne, Collection.WF] using h
    | none =>
      simp only [deleteProduct, hid, Collection.DeleteOne, Collection.WF]
      exact List.Nodup.sublist ((deleteFirst_sublist id c.docs).map _) h

end CrudGO
